import Mathlib

/-!
Verification of the rucio copytool adapter (`pilot/copytool/rucio.py`):
a shallow embedding of `copy_in`, `copy_out` and `resolve_transfer_error`
together with proofs of the specified properties.  External collaborators
(command execution, filesystem, checksum verification, summary-JSON
contents) are passed in as explicit environments.
-/

namespace Rucio

/-! ## Python-style string helpers -/

/-- Truthiness of a Python string: the empty string is falsy. -/
def pyTruthyStr (s : String) : Bool := s ≠ ""

/-- Truthiness of an optional Python string (`None` and `''` are falsy). -/
def pyTruthyOpt : Option String → Bool
  | none => false
  | some s => s ≠ ""

/-- Python `a or b` on strings (empty string counts as falsy). -/
def pyOr (a b : String) : String := if a = "" then b else a

/-- `'%s' % b` for a Python boolean. -/
def pyBoolStr (b : Bool) : String := if b then "True" else "False"

/-- Python regex class `\s`: space, tab, newline, carriage return,
form feed, vertical tab. -/
def isPySpace (c : Char) : Bool :=
  c.toNat = 32 || c.toNat = 9 || c.toNat = 10 || c.toNat = 13 ||
  c.toNat = 12 || c.toNat = 11

/-- Drop a maximal run of Python whitespace (greedy `\s*`). -/
def dropPySpaces : List Char → List Char
  | [] => []
  | c :: cs => if isPySpace c then dropPySpaces cs else c :: cs

/-- Does the first list occur at the head of the second list? -/
def startsList : List Char → List Char → Bool
  | [], _ => true
  | _ :: _, [] => false
  | a :: as, b :: bs => a = b && startsList as bs

/-- Substring containment (`needle in hay` for Python strings). -/
def containsSub (needle : List Char) : List Char → Bool
  | [] => startsList needle []
  | c :: rest => startsList needle (c :: rest) || containsSub needle rest

/-- `str.split(sep)` for a one-character separator: always returns at
least one (possibly empty) chunk. -/
def splitOnChar (sep : Char) : List Char → List (List Char)
  | [] => [[]]
  | c :: cs =>
    match splitOnChar sep cs with
    | [] => if c = sep then [[], []] else [[c]]
    | chunk :: rest =>
      if c = sep then [] :: chunk :: rest else (c :: chunk) :: rest

/-- `" ".join(parts)`. -/
def joinSpace : List String → String
  | [] => ""
  | [x] => x
  | x :: y :: rest => x ++ " " ++ joinSpace (y :: rest)

/-- Does the string end with a slash? -/
def endsSlash (s : String) : Bool :=
  match s.toList.getLast? with
  | some c => c = '/'
  | none => false

/-- POSIX `os.path.join` for two components. -/
def pathJoin (a b : String) : String :=
  if startsList ['/'] b.toList then b
  else if a = "" then a ++ b
  else if endsSlash a then a ++ b
  else a ++ "/" ++ b

/-- First-match lookup in an association list (a parsed JSON object). -/
def lookupStr {α : Type} : List (String × α) → String → Option α
  | [], _ => none
  | (k, v) :: rest, key => if k = key then some v else lookupStr rest key

/-! ## Error codes

Modelled from the spec: the numeric error codes come from
`pilot.common.exception.ErrorCodes`, which is not part of the sources
under verification; the spec (§6) only requires a small closed
enumeration — stage-in-failed, stage-out-failed, service-unavailable,
put-checksum-mismatch — of distinct nonzero codes. -/

namespace ErrorCodes

def STAGEINFAILED : Nat := 1099

def STAGEOUTFAILED : Nat := 1137

def PUTADMISMATCH : Nat := 1120

def RUCIOSERVICEUNAVAILABLE : Nat := 1198

end ErrorCodes

/-! ## Error classifier (`resolve_transfer_error`) -/

/-- The structured error dictionary `{'rcode', 'state', 'error'}`. -/
structure TransferError where
  rcode : Nat
  state : String
  error : String
  deriving DecidableEq, Repr

/-- The default structured error before any line of the output matched. -/
def defaultError (output : String) (is_stagein : Bool) : TransferError :=
  { rcode := if is_stagein then ErrorCodes.STAGEINFAILED else ErrorCodes.STAGEOUTFAILED
    state := "COPY_ERROR"
    error := "Copy operation failed [is_stagein=" ++ pyBoolStr is_stagein ++ "]: " ++ output }

/-- Match the regex `Details\s*:\s*(?P<error>.*)` anchored at the start
of the given character list, returning the captured group. -/
def detailsAt (cs : List Char) : Option (List Char) :=
  if startsList "Details".toList cs then
    match dropPySpaces (cs.drop 7) with
    | ':' :: rest => some (dropPySpaces rest)
    | _ => none
  else none

/-- `re.search("Details\s*:\s*(?P<error>.*)", line)`: try the pattern at
every position, leftmost match wins. -/
def searchDetails : List Char → Option (List Char)
  | [] => none
  | c :: cs =>
    match detailsAt (c :: cs) with
    | some r => some r
    | none => searchDetails cs

/-- One iteration of the classification loop body. -/
def classifyLine (ret : TransferError) (line : List Char) : TransferError :=
  match searchDetails line with
  | some cap => { ret with error := String.mk cap }
  | none =>
    if containsSub "service_unavailable".toList line then
      { ret with error := "service_unavailable"
                 rcode := ErrorCodes.RUCIOSERVICEUNAVAILABLE }
    else ret

/-- `resolve_transfer_error(output, is_stagein)`. -/
def resolve_transfer_error (output : String) (is_stagein : Bool) : TransferError :=
  (splitOnChar '\n' output.toList).foldl classifyLine (defaultError output is_stagein)

/-- A line that triggers the service-unavailable branch: it contains the
marker and does not match the `Details` pattern. -/
def markerLine (l : List Char) : Bool :=
  (searchDetails l).isNone && containsSub "service_unavailable".toList l

/-- A line that matches no pattern at all. -/
def inertLine (l : List Char) : Bool :=
  (searchDetails l).isNone && !containsSub "service_unavailable".toList l

/-! ## Data model -/

/-- The caller-owned file record: identity, location and status fields,
as read and written by this module. `status_code`/`status` form the
mutable transfer status. -/
structure FileSpec where
  scope : String
  lfn : String
  guid : String
  workdir : String
  replicas : List (String × String)
  ddmendpoint : String
  turl : Option String
  surl : String
  checksum : List (String × String)
  is_directaccess : Bool
  status_code : Nat
  status : String
  deriving DecidableEq, Repr

/-- The controlled failure raised on a non-ignorable error
(`PilotException(msg, code=..., state=...)`). -/
structure PilotException where
  msg : String
  code : Nat
  state : String
  deriving DecidableEq, Repr

/-- Modelled from the spec: the checksum-verification collaborator
`verify_catalog_checksum` (in `pilot/copytool/common.py`, outside the
sources under verification) returns a state string and a diagnostics
string and, on an integrity failure, sets the record's status code to a
failure code and its status tag to `failed` (§6: "the core reads only
whether the record's status code was set by this call"). -/
structure VerifyOutcome where
  state : String
  diagnostics : String
  failCode : Option Nat
  deriving DecidableEq, Repr

/-- Apply the checksum collaborator's effect on the record. -/
def applyVerify (f : FileSpec) (v : VerifyOutcome) : FileSpec :=
  match v.failCode with
  | some c => { f with status_code := c, status := "failed" }
  | none => f

/-- The common final step of both loops:
`if not fspec.status_code: fspec.status_code = 0; fspec.status = 'transferred'`. -/
def finishRecord (f : FileSpec) : FileSpec :=
  if f.status_code = 0 then { f with status_code := 0, status := "transferred" } else f

/-- `require_replicas` module constant. -/
def require_replicas : Bool := true

/-- `require_protocols` module constant. -/
def require_protocols : Bool := false

/-- External collaborators of `copy_in`: command execution (indexed by
record position, returning exit code, stdout, stderr), filesystem
existence, and the checksum-verification collaborator. -/
structure InEnv where
  exec : Nat → String → Nat × String × String
  pathExists : String → Bool
  verify : FileSpec → String → VerifyOutcome

/-- External collaborators of `copy_out`: command execution, filesystem
existence, and the parsed content of the summary JSON artifact. -/
structure OutEnv where
  exec : Nat → String → Nat × String × String
  pathExists : String → Bool
  summaryOf : Nat → String → List (String × List (String × String))

/-- The Python variable `summary` in `copy_out`: initially the boolean
option, rebound to the parsed JSON object once a summary file is read. -/
inductive SummaryVar where
  | flag (b : Bool)
  | parsed (obj : List (String × List (String × String)))
  deriving DecidableEq, Repr

/-- Python truthiness of the `summary` variable. -/
def SummaryVar.truthy : SummaryVar → Bool
  | .flag b => b
  | .parsed obj => !obj.isEmpty

/-! ## copy_in -/

/-- The download command built for one record (list of arguments). -/
def inCmd (wd : String) (f : FileSpec) : List String :=
  let dst := pyOr f.workdir (pyOr wd ".")
  ["/usr/bin/env", "rucio", "-v", "download", "--no-subdir", "--dir", dst]
    ++ (if require_replicas && !f.replicas.isEmpty then
          ["--rse", (f.replicas.headD ("", "")).1] else [])
    ++ [f.scope ++ ":" ++ f.lfn]

/-- The joined download command line (`" ".join(cmd)`). -/
def inCmdline (wd : String) (f : FileSpec) : String := joinSpace (inCmd wd f)

/-- Result of processing a single record in `copy_in`: the mutated
record, the command issued (if any), the checksum verification performed
(if any), and the exception raised (if any). -/
structure StepIn where
  file : FileSpec
  cmd : Option (Nat × String)
  ver : Option (Nat × String)
  exn : Option PilotException
  deriving Repr

/-- The checksum-verification and finalization part of the `copy_in`
loop body (everything after the transfer attempt). -/
def copy_in_tail (env : InEnv) (ign : Bool) (idx : Nat) (cmdline dst : String)
    (f : FileSpec) : StepIn :=
  let destination := pathJoin dst f.lfn
  if env.pathExists destination then
    let v := env.verify f destination
    let f2 := applyVerify f v
    if f2.status_code ≠ 0 && !ign then
      ⟨f2, some (idx, cmdline), some (idx, destination),
        some ⟨v.diagnostics, f2.status_code, v.state⟩⟩
    else
      ⟨finishRecord f2, some (idx, cmdline), some (idx, destination), none⟩
  else
    ⟨finishRecord f, some (idx, cmdline), none, none⟩

/-- The `copy_in` loop body for one record. -/
def copy_in_step (env : InEnv) (aDA ign : Bool) (wd : String) (idx : Nat)
    (f : FileSpec) : StepIn :=
  if f.is_directaccess && aDA then
    ⟨{ f with status_code := 0, status := "remote_io" }, none, none, none⟩
  else
    let f1 : FileSpec := { f with status_code := 0 }
    let dst := pyOr f1.workdir (pyOr wd ".")
    let cmdline := inCmdline wd f1
    let er := env.exec idx cmdline
    if er.1 = 0 then
      copy_in_tail env ign idx cmdline dst f1
    else
      let error := resolve_transfer_error er.2.2 true
      let f2 : FileSpec := { f1 with status := "failed", status_code := error.rcode }
      if ign then
        copy_in_tail env ign idx cmdline dst f2
      else
        ⟨f2, some (idx, cmdline), none, some ⟨error.error, error.rcode, error.state⟩⟩

/-- Result of a whole batch call: records as mutated in place, the trace
of issued commands, the trace of checksum verifications, and the raised
exception (if any). -/
structure BatchIn where
  files : List FileSpec
  cmds : List (Nat × String)
  vers : List (Nat × String)
  exn : Option PilotException
  deriving Repr

/-- Sequential iteration of `copy_in` over the batch, stopping at the
first raised exception. -/
def copy_in_loop (env : InEnv) (aDA ign : Bool) (wd : String) :
    Nat → List FileSpec → BatchIn
  | _, [] => ⟨[], [], [], none⟩
  | idx, f :: rest =>
    let s := copy_in_step env aDA ign wd idx f
    match s.exn with
    | some e => ⟨s.file :: rest, s.cmd.toList, s.ver.toList, some e⟩
    | none =>
      let r := copy_in_loop env aDA ign wd (idx + 1) rest
      ⟨s.file :: r.files, s.cmd.toList ++ r.cmds, s.ver.toList ++ r.vers, r.exn⟩

/-- `copy_in(files, **kwargs)` with options `allow_direct_access`,
`ignore_errors` and `workdir`. -/
def copy_in (env : InEnv) (aDA ign : Bool) (wd : String) (files : List FileSpec) : BatchIn :=
  copy_in_loop env aDA ign wd 0 files

/-! ## copy_out -/

/-- The upload command built for one record; `svT` is the truthiness of
the `summary` variable at this iteration. -/
def outCmd (svT noReg : Bool) (f : FileSpec) : List String :=
  ["/usr/bin/env", "rucio", "-v", "upload", "--rse", f.ddmendpoint]
    ++ (if pyTruthyStr f.scope then ["--scope", f.scope] else [])
    ++ (if pyTruthyStr f.guid then ["--guid", f.guid] else [])
    ++ (if noReg then ["--no-register"] else [])
    ++ (if svT then ["--summary"] else [])
    ++ (match f.turl with
        | some t => if t ≠ "" then ["--pfn", t] else []
        | none => [])
    ++ [f.surl]

/-- The joined upload command line. -/
def outCmdline (svT noReg : Bool) (f : FileSpec) : String :=
  joinSpace (outCmd svT noReg f)

/-- Python `a and b and a != b` for the two optional digests
(`fspec.checksum.get('adler32')` vs the summary entry's `adler32`). -/
def pyMismatch : Option String → Option String → Bool
  | some a, some b => a ≠ "" && b ≠ "" && a ≠ b
  | _, _ => false

/-- Result of processing a single record in `copy_out`: the mutated
record, the new value of the `summary` variable, the command issued, the
summary file read (if any), and the exception raised (if any). -/
structure StepO where
  file : FileSpec
  sv : SummaryVar
  cmd : Nat × String
  rd : Option (Nat × String)
  exn : Option PilotException
  deriving Repr

/-- The summary-resolution and finalization part of the `copy_out` loop
body (everything after the transfer attempt). -/
def copy_out_summary (env : OutEnv) (ign : Bool) (wd : String) (idx : Nat)
    (cmdline : String) (sv : SummaryVar) (f : FileSpec) : StepO :=
  if sv.truthy then
    let cwd := pyOr f.workdir (pyOr wd ".")
    let path := pathJoin cwd "rucio_upload.json"
    if env.pathExists path then
      let obj := env.summaryOf idx path
      let sv2 := SummaryVar.parsed obj
      let dat := match lookupStr obj (f.scope ++ ":" ++ f.lfn) with
        | some d => d
        | none => []
      let f2 : FileSpec := { f with turl := lookupStr dat "pfn" }
      let adler32 := lookupStr dat "adler32"
      if pyMismatch (lookupStr f2.checksum "adler32") adler32 then
        let f3 : FileSpec := { f2 with status := "failed",
                                       status_code := ErrorCodes.PUTADMISMATCH }
        if ign then
          ⟨finishRecord f3, sv2, (idx, cmdline), some (idx, path), none⟩
        else
          ⟨f3, sv2, (idx, cmdline), some (idx, path),
            some ⟨"Failed to stageout: CRC mismatched",
                  ErrorCodes.PUTADMISMATCH, "AD_MISMATCH"⟩⟩
      else
        ⟨finishRecord f2, sv2, (idx, cmdline), some (idx, path), none⟩
    else
      ⟨finishRecord f, sv, (idx, cmdline), none, none⟩
  else
    ⟨finishRecord f, sv, (idx, cmdline), none, none⟩

/-- The `copy_out` loop body for one record. -/
def copy_out_step (env : OutEnv) (noReg ign : Bool) (wd : String) (idx : Nat)
    (sv : SummaryVar) (f : FileSpec) : StepO :=
  let cmdline := outCmdline sv.truthy noReg f
  let er := env.exec idx cmdline
  let f1 : FileSpec := { f with status_code := 0 }
  if er.1 = 0 then
    copy_out_summary env ign wd idx cmdline sv f1
  else
    let error := resolve_transfer_error er.2.2 false
    let f2 : FileSpec := { f1 with status := "failed", status_code := error.rcode }
    if ign then
      copy_out_summary env ign wd idx cmdline sv f2
    else
      ⟨f2, sv, (idx, cmdline), none, some ⟨error.error, error.rcode, error.state⟩⟩

/-- Result of a whole `copy_out` batch call: records, the trace of
issued commands, the trace of summary files read, and the raised
exception (if any). -/
structure BatchO where
  files : List FileSpec
  cmds : List (Nat × String)
  reads : List (Nat × String)
  exn : Option PilotException
  deriving Repr

/-- Sequential iteration of `copy_out` over the batch, threading the
`summary` variable and stopping at the first raised exception. -/
def copy_out_loop (env : OutEnv) (noReg ign : Bool) (wd : String) :
    Nat → SummaryVar → List FileSpec → BatchO
  | _, _, [] => ⟨[], [], [], none⟩
  | idx, sv, f :: rest =>
    let s := copy_out_step env noReg ign wd idx sv f
    match s.exn with
    | some e => ⟨s.file :: rest, [s.cmd], s.rd.toList, some e⟩
    | none =>
      let r := copy_out_loop env noReg ign wd (idx + 1) s.sv rest
      ⟨s.file :: r.files, s.cmd :: r.cmds, s.rd.toList ++ r.reads, r.exn⟩

/-- `copy_out(files, **kwargs)` with options `no_register`, `summary`,
`ignore_errors` and `workdir`. -/
def copy_out (env : OutEnv) (noReg summaryOpt ign : Bool) (wd : String)
    (files : List FileSpec) : BatchO :=
  copy_out_loop env noReg ign wd 0 (SummaryVar.flag summaryOpt) files

/-- The specified status invariant: code 0 iff the tag is `remote_io` or
`transferred`, and a nonzero code implies tag `failed`. -/
def statusInv (f : FileSpec) : Prop :=
  (f.status_code = 0 ↔ (f.status = "remote_io" ∨ f.status = "transferred")) ∧
  (f.status_code ≠ 0 → f.status = "failed")

instance (f : FileSpec) : Decidable (statusInv f) := by
  unfold statusInv; infer_instance

/-! ## Concrete fixtures used to instantiate the theorems -/

/-- A plain test record. -/
def wFileA : FileSpec :=
  ⟨"s", "a", "", "", [], "D", none, "/a", [("adler32", "aa")], false, 3, "x"⟩

/-- A second test record. -/
def wFileB : FileSpec :=
  ⟨"s", "b", "", "", [], "D", none, "/b", [("adler32", "aa")], false, 3, "x"⟩

/-- A third test record. -/
def wFileC : FileSpec :=
  ⟨"s", "c", "", "", [], "D", none, "/c", [("adler32", "aa")], false, 3, "x"⟩

/-- A record that supports direct remote access. -/
def wFileD : FileSpec :=
  ⟨"s", "d", "", "", [], "D", none, "/d", [("adler32", "aa")], true, 3, "x"⟩

/-- A three-record batch. -/
def wBatch : List FileSpec := [wFileA, wFileB, wFileC]

/-- Inbound environment: every transfer succeeds, no file exists. -/
def wEnvI : InEnv :=
  ⟨fun _ _ => (0, "", ""), fun _ => false, fun _ _ => ⟨"", "", none⟩⟩

/-- Inbound environment: transfers succeed, destination files exist, the
checksum collaborator reports success. -/
def wEnvIOk : InEnv :=
  ⟨fun _ _ => (0, "", ""), fun _ => true, fun _ _ => ⟨"", "", none⟩⟩

/-- Inbound environment in which the second invocation fails. -/
def wEnvIFail : InEnv :=
  ⟨fun idx _ => if idx = 1 then (2, "", "boom") else (0, "", ""),
   fun _ => false, fun _ _ => ⟨"", "", none⟩⟩

/-- Outbound environment: every transfer succeeds, no summary file. -/
def wEnvO : OutEnv :=
  ⟨fun _ _ => (0, "", ""), fun _ => false, fun _ _ => []⟩

/-- Outbound environment in which the second invocation fails. -/
def wEnvOFail : OutEnv :=
  ⟨fun idx _ => if idx = 1 then (2, "", "boom") else (0, "", ""),
   fun _ => false, fun _ _ => []⟩

/-- Outbound environment: summary files exist but parse to the empty
object. -/
def wEnvORead : OutEnv :=
  ⟨fun _ _ => (0, "", ""), fun _ => true, fun _ _ => []⟩

/-- Outbound environment whose summary artifact maps `s:a` to a pfn and
digest `deadbeef`. -/
def wEnvOHit : OutEnv :=
  ⟨fun _ _ => (0, "", ""), fun _ => true,
   fun _ _ => [("s:a", [("pfn", "https://x/a"), ("adler32", "deadbeef")])]⟩

/-- A record expecting digest `deadbeef` (matching [wEnvOHit]). -/
def wFileM : FileSpec :=
  ⟨"s", "a", "", "", [], "D", none, "/a", [("adler32", "deadbeef")], false, 3, "x"⟩

/-- A record expecting digest `cafef00d` (mismatching [wEnvOHit]). -/
def wFileN : FileSpec :=
  ⟨"s", "a", "", "", [], "D", none, "/a", [("adler32", "cafef00d")], false, 3, "x"⟩

/-- Outbound environment for the cross-record dependency scenario: the
second invocation fails, every path exists, record 0's summary parses
empty while record 1's summary shows a mismatching digest. -/
def wEnvC4A : OutEnv :=
  ⟨fun idx _ => if idx = 1 then (1, "", "boom") else (0, "", ""),
   fun _ => true,
   fun idx _ => if idx = 0 then []
     else [("s:b", [("pfn", "P"), ("adler32", "bb")])]⟩

/-- Same as [wEnvC4A] at every record-1-relevant input, but record 0's
summary parses to a non-empty object (with a digest matching record 0's
checksum). -/
def wEnvC4B : OutEnv :=
  ⟨fun idx _ => if idx = 1 then (1, "", "boom") else (0, "", ""),
   fun _ => true,
   fun idx _ => if idx = 0 then [("s:a", [("pfn", "Q"), ("adler32", "aa")])]
     else [("s:b", [("pfn", "P"), ("adler32", "bb")])]⟩

/-! ## Classifier lemmas -/

theorem classifyLine_state (ret : TransferError) (l : List Char) :
    (classifyLine ret l).state = ret.state := by
  unfold classifyLine
  cases searchDetails l <;> simp
  split <;> rfl

theorem foldl_classify_state (ls : List (List Char)) (acc : TransferError) :
    (ls.foldl classifyLine acc).state = acc.state := by
  induction ls generalizing acc with
  | nil => rfl
  | cons l ls ih => rw [List.foldl_cons, ih, classifyLine_state]

theorem foldl_classify_rcode (ls : List (List Char)) (acc : TransferError) :
    (ls.foldl classifyLine acc).rcode =
      if ls.any markerLine then ErrorCodes.RUCIOSERVICEUNAVAILABLE else acc.rcode := by
  induction ls generalizing acc with
  | nil => rfl
  | cons l ls ih =>
    rw [List.foldl_cons, ih, List.any_cons]
    unfold classifyLine markerLine
    cases h : searchDetails l with
    | some cap => simp [h]
    | none =>
      cases hm : containsSub "service_unavailable".toList l with
      | false => simp [h, hm]
      | true => simp [h, hm]

theorem classifyLine_inert (ret : TransferError) (l : List Char)
    (h : inertLine l = true) : classifyLine ret l = ret := by
  unfold inertLine at h
  unfold classifyLine
  cases hs : searchDetails l with
  | some cap => rw [hs] at h; simp at h
  | none =>
    rw [hs] at h
    simp only [Option.isNone_none, Bool.true_and] at h
    cases hm : containsSub "service_unavailable".toList l with
    | true => rw [hm] at h; simp at h
    | false => simp [hm]

theorem foldl_classify_inert (ls : List (List Char)) (acc : TransferError)
    (h : ∀ l ∈ ls, inertLine l = true) : ls.foldl classifyLine acc = acc := by
  induction ls generalizing acc with
  | nil => rfl
  | cons l ls ih =>
    rw [List.foldl_cons, classifyLine_inert acc l (h l (by simp)), ih]
    intro x hx
    exact h x (by simp [hx])

theorem foldl_classify_error_noDetails (ls : List (List Char)) (acc : TransferError)
    (hd : ∀ l ∈ ls, searchDetails l = none) :
    (ls.foldl classifyLine acc).error =
      if ls.any markerLine then "service_unavailable" else acc.error := by
  induction ls generalizing acc with
  | nil => rfl
  | cons l ls ih =>
    rw [List.foldl_cons, List.any_cons]
    have hl : searchDetails l = none := hd l (by simp)
    have hrest : ∀ x ∈ ls, searchDetails x = none := by
      intro x hx; exact hd x (by simp [hx])
    rw [ih _ hrest]
    unfold classifyLine markerLine
    cases hm : containsSub "service_unavailable".toList l with
    | false => simp [hl, hm]
    | true => simp [hl, hm]

theorem resolve_rcode_cases (output : String) (b : Bool) :
    (resolve_transfer_error output b).rcode = ErrorCodes.STAGEINFAILED ∨
    (resolve_transfer_error output b).rcode = ErrorCodes.STAGEOUTFAILED ∨
    (resolve_transfer_error output b).rcode = ErrorCodes.RUCIOSERVICEUNAVAILABLE := by
  unfold resolve_transfer_error
  rw [foldl_classify_rcode]
  split
  · right; right; rfl
  · cases b <;> simp [defaultError]

theorem resolve_rcode_ne_zero (output : String) (b : Bool) :
    (resolve_transfer_error output b).rcode ≠ 0 := by
  rcases resolve_rcode_cases output b with h | h | h <;> rw [h] <;> decide

/-! ## Step-level lemmas for copy_in -/

theorem copy_in_tail_cmd (env : InEnv) (ign : Bool) (idx : Nat) (cmdline dst : String)
    (f : FileSpec) : (copy_in_tail env ign idx cmdline dst f).cmd = some (idx, cmdline) := by
  simp only [copy_in_tail]
  split
  · split <;> rfl
  · rfl

theorem copy_in_tail_exn_ign (env : InEnv) (idx : Nat) (cmdline dst : String)
    (f : FileSpec) : (copy_in_tail env true idx cmdline dst f).exn = none := by
  simp only [copy_in_tail]
  split
  · simp
  · rfl

theorem copy_in_step_exn_ign (env : InEnv) (aDA : Bool) (wd : String) (idx : Nat)
    (f : FileSpec) : (copy_in_step env aDA true wd idx f).exn = none := by
  simp only [copy_in_step]
  split
  · rfl
  · split
    · exact copy_in_tail_exn_ign ..
    · exact copy_in_tail_exn_ign ..

theorem copy_in_step_cmd_direct (env : InEnv) (aDA ign : Bool) (wd : String) (idx : Nat)
    (f : FileSpec) (h : (f.is_directaccess && aDA) = true) :
    copy_in_step env aDA ign wd idx f =
      ⟨{ f with status_code := 0, status := "remote_io" }, none, none, none⟩ := by
  unfold copy_in_step
  rw [h]
  rfl

theorem copy_in_step_cmd_not_direct (env : InEnv) (aDA ign : Bool) (wd : String) (idx : Nat)
    (f : FileSpec) (h : (f.is_directaccess && aDA) = false) :
    (copy_in_step env aDA ign wd idx f).cmd = some (idx, inCmdline wd f) := by
  simp only [copy_in_step, h, Bool.false_eq_true, if_false]
  split
  · exact copy_in_tail_cmd ..
  · split
    · exact copy_in_tail_cmd ..
    · rfl

theorem copy_in_step_cmd_idx (env : InEnv) (aDA ign : Bool) (wd : String) (idx : Nat)
    (f : FileSpec) : ∀ p ∈ (copy_in_step env aDA ign wd idx f).cmd.toList, p.1 = idx := by
  intro p hp
  cases hd : (f.is_directaccess && aDA) with
  | true => rw [copy_in_step_cmd_direct env aDA ign wd idx f hd] at hp; simp at hp
  | false =>
    rw [copy_in_step_cmd_not_direct env aDA ign wd idx f hd] at hp
    simp at hp
    rw [hp]

theorem statusInv_of_failed (f : FileSpec) (hc : f.status_code ≠ 0)
    (hs : f.status = "failed") : statusInv f := by
  refine ⟨⟨fun h => absurd h hc, ?_⟩, fun _ => hs⟩
  rintro (h | h) <;> rw [hs] at h <;> exact absurd h (by decide)

theorem statusInv_finish (f : FileSpec) (h : f.status_code ≠ 0 → f.status = "failed") :
    statusInv (finishRecord f) := by
  unfold finishRecord
  by_cases h0 : f.status_code = 0
  · rw [if_pos h0]
    exact ⟨⟨fun _ => Or.inr rfl, fun _ => rfl⟩, fun hc => absurd rfl hc⟩
  · rw [if_neg h0]
    exact statusInv_of_failed f h0 (h h0)

theorem applyVerify_P (f : FileSpec) (v : VerifyOutcome)
    (h : f.status_code ≠ 0 → f.status = "failed") :
    (applyVerify f v).status_code ≠ 0 → (applyVerify f v).status = "failed" := by
  unfold applyVerify
  cases v.failCode with
  | some c => exact fun _ => rfl
  | none => exact h

theorem copy_in_tail_inv (env : InEnv) (ign : Bool) (idx : Nat) (cmdline dst : String)
    (f : FileSpec) (h : f.status_code ≠ 0 → f.status = "failed") :
    statusInv (copy_in_tail env ign idx cmdline dst f).file := by
  simp only [copy_in_tail]
  split
  · split
    · next hg =>
      simp only [Bool.and_eq_true, decide_eq_true_eq] at hg
      exact statusInv_of_failed _ hg.1 (applyVerify_P f _ h hg.1)
    · exact statusInv_finish _ (applyVerify_P f _ h)
  · exact statusInv_finish _ h

theorem copy_in_step_inv (env : InEnv) (aDA ign : Bool) (wd : String) (idx : Nat)
    (f : FileSpec) : statusInv (copy_in_step env aDA ign wd idx f).file := by
  simp only [copy_in_step]
  split
  · exact ⟨⟨fun _ => Or.inl rfl, fun _ => rfl⟩, fun hc => absurd rfl hc⟩
  · split
    · exact copy_in_tail_inv env ign idx _ _ _ (fun hc => absurd rfl hc)
    · split
      · exact copy_in_tail_inv env ign idx _ _ _ (fun _ => rfl)
      · refine statusInv_of_failed _ ?_ rfl
        exact resolve_rcode_ne_zero _ true

/-! ## Loop-level lemmas for copy_in -/

theorem copy_in_loop_cons_raise {env : InEnv} {aDA ign : Bool} {wd : String} {idx : Nat}
    (f : FileSpec) (rest : List FileSpec) {e : PilotException}
    (h : (copy_in_step env aDA ign wd idx f).exn = some e) :
    copy_in_loop env aDA ign wd idx (f :: rest) =
      ⟨(copy_in_step env aDA ign wd idx f).file :: rest,
       (copy_in_step env aDA ign wd idx f).cmd.toList,
       (copy_in_step env aDA ign wd idx f).ver.toList, some e⟩ := by
  simp only [copy_in_loop]
  rw [h]

theorem copy_in_loop_cons_ok {env : InEnv} {aDA ign : Bool} {wd : String} {idx : Nat}
    (f : FileSpec) (rest : List FileSpec)
    (h : (copy_in_step env aDA ign wd idx f).exn = none) :
    copy_in_loop env aDA ign wd idx (f :: rest) =
      ⟨(copy_in_step env aDA ign wd idx f).file ::
          (copy_in_loop env aDA ign wd (idx + 1) rest).files,
       (copy_in_step env aDA ign wd idx f).cmd.toList ++
          (copy_in_loop env aDA ign wd (idx + 1) rest).cmds,
       (copy_in_step env aDA ign wd idx f).ver.toList ++
          (copy_in_loop env aDA ign wd (idx + 1) rest).vers,
       (copy_in_loop env aDA ign wd (idx + 1) rest).exn⟩ := by
  simp only [copy_in_loop]
  rw [h]

theorem copy_in_cmds_ge (env : InEnv) (aDA ign : Bool) (wd : String) :
    ∀ (fs : List FileSpec) (idx : Nat) (p : Nat × String),
      p ∈ (copy_in_loop env aDA ign wd idx fs).cmds → idx ≤ p.1 := by
  intro fs
  induction fs with
  | nil => intro idx p hp; simp [copy_in_loop] at hp
  | cons g rest ih =>
    intro idx p hp
    cases hexn : (copy_in_step env aDA ign wd idx g).exn with
    | some e =>
      rw [copy_in_loop_cons_raise g rest hexn] at hp
      exact le_of_eq (copy_in_step_cmd_idx env aDA ign wd idx g p hp).symm
    | none =>
      rw [copy_in_loop_cons_ok g rest hexn] at hp
      simp only [List.mem_append] at hp
      rcases hp with hp | hp
      · exact le_of_eq (copy_in_step_cmd_idx env aDA ign wd idx g p hp).symm
      · exact le_trans (Nat.le_succ idx) (ih (idx + 1) p hp)

theorem copy_in_loop_inv (env : InEnv) (aDA ign : Bool) (wd : String) :
    ∀ (fs : List FileSpec) (idx : Nat),
      (copy_in_loop env aDA ign wd idx fs).exn = none →
      ∀ f ∈ (copy_in_loop env aDA ign wd idx fs).files, statusInv f := by
  intro fs
  induction fs with
  | nil => intro idx _ f hf; simp [copy_in_loop] at hf
  | cons g rest ih =>
    intro idx h f hf
    cases hexn : (copy_in_step env aDA ign wd idx g).exn with
    | some e => rw [copy_in_loop_cons_raise g rest hexn] at h; simp at h
    | none =>
      rw [copy_in_loop_cons_ok g rest hexn] at h hf
      simp only [List.mem_cons] at hf
      rcases hf with hf | hf
      · rw [hf]; exact copy_in_step_inv env aDA ign wd idx g
      · exact ih (idx + 1) h f hf

theorem copy_in_step_fail_eq (env : InEnv) (aDA : Bool) (wd : String) (idx : Nat)
    (f : FileSpec) (hd : (f.is_directaccess && aDA) = false)
    (her : (env.exec idx (inCmdline wd f)).1 ≠ 0) :
    copy_in_step env aDA false wd idx f =
      ⟨{ f with
           status_code := (resolve_transfer_error (env.exec idx (inCmdline wd f)).2.2 true).rcode,
           status := "failed" },
       some (idx, inCmdline wd f), none,
       some ⟨(resolve_transfer_error (env.exec idx (inCmdline wd f)).2.2 true).error,
             (resolve_transfer_error (env.exec idx (inCmdline wd f)).2.2 true).rcode,
             (resolve_transfer_error (env.exec idx (inCmdline wd f)).2.2 true).state⟩⟩ := by
  simp only [copy_in_step, hd, Bool.false_eq_true, if_false]
  split
  · next h0 => exact absurd h0 her
  · rfl

theorem copy_in_fail (env : InEnv) (aDA : Bool) (wd : String) :
    ∀ (fs : List FileSpec) (idx k : Nat) (s : String),
      (k, s) ∈ (copy_in_loop env aDA false wd idx fs).cmds →
      (env.exec k s).1 ≠ 0 →
      (copy_in_loop env aDA false wd idx fs).exn
          = some ⟨(resolve_transfer_error (env.exec k s).2.2 true).error,
                  (resolve_transfer_error (env.exec k s).2.2 true).rcode,
                  (resolve_transfer_error (env.exec k s).2.2 true).state⟩ ∧
      (∀ p ∈ (copy_in_loop env aDA false wd idx fs).cmds, p.1 ≤ k) ∧
      (copy_in_loop env aDA false wd idx fs).files.drop (k + 1 - idx)
          = fs.drop (k + 1 - idx) ∧
      ∃ g, (copy_in_loop env aDA false wd idx fs).files.get? (k - idx) = some g ∧
        g.status = "failed" ∧
        g.status_code = (resolve_transfer_error (env.exec k s).2.2 true).rcode := by
  intro fs
  induction fs with
  | nil => intro idx k s hmem hfail; simp [copy_in_loop] at hmem
  | cons g rest ih =>
    intro idx k s hmem hfail
    cases hexn : (copy_in_step env aDA false wd idx g).exn with
    | some e =>
      rw [copy_in_loop_cons_raise g rest hexn] at hmem ⊢
      simp only at hmem ⊢
      have hd : (g.is_directaccess && aDA) = false := by
        cases hdc : (g.is_directaccess && aDA) with
        | false => rfl
        | true =>
          rw [copy_in_step_cmd_direct env aDA false wd idx g hdc] at hexn
          simp at hexn
      rw [copy_in_step_cmd_not_direct env aDA false wd idx g hd] at hmem
      simp only [Option.toList_some, List.mem_singleton, Prod.mk.injEq] at hmem
      obtain ⟨hk, hs⟩ := hmem
      subst hk; subst hs
      have her : (env.exec k (inCmdline wd g)).1 ≠ 0 := hfail
      have hfeq := copy_in_step_fail_eq env aDA wd k g hd her
      rw [hfeq] at hexn
      simp only [Option.some.injEq] at hexn
      subst hexn
      refine ⟨rfl, ?_, ?_, ?_⟩
      · intro p hp
        rw [copy_in_step_cmd_not_direct env aDA false wd k g hd] at hp
        simp only [Option.toList_some, List.mem_singleton] at hp
        rw [hp]
      · have e1 : k + 1 - k = 1 := by omega
        rw [e1]
        simp
      · have e0 : k - k = 0 := by omega
        rw [e0, hfeq]
        exact ⟨_, rfl, rfl, rfl⟩
    | none =>
      rw [copy_in_loop_cons_ok g rest hexn] at hmem ⊢
      simp only [List.mem_append] at hmem
      have hmem' : (k, s) ∈ (copy_in_loop env aDA false wd (idx + 1) rest).cmds := by
        rcases hmem with hmem | hmem
        · exfalso
          have hd : (g.is_directaccess && aDA) = false := by
            cases hdc : (g.is_directaccess && aDA) with
            | false => rfl
            | true =>
              rw [copy_in_step_cmd_direct env aDA false wd idx g hdc] at hmem
              simp at hmem
          rw [copy_in_step_cmd_not_direct env aDA false wd idx g hd] at hmem
          simp only [Option.toList_some, List.mem_singleton, Prod.mk.injEq] at hmem
          obtain ⟨hk, hs⟩ := hmem
          subst hk; subst hs
          have hfeq := copy_in_step_fail_eq env aDA wd k g hd hfail
          rw [hfeq] at hexn
          simp at hexn
        · exact hmem
      have hk1 : idx + 1 ≤ k := copy_in_cmds_ge env aDA false wd rest (idx + 1) (k, s) hmem'
      obtain ⟨hA, hB, hC, hD⟩ := ih (idx + 1) k s hmem' hfail
      refine ⟨hA, ?_, ?_, ?_⟩
      · intro p hp
        simp only [List.mem_append] at hp
        rcases hp with hp | hp
        · have := copy_in_step_cmd_idx env aDA false wd idx g p hp
          omega
        · exact hB p hp
      · simp only
        have e1 : k + 1 - idx = (k - idx) + 1 := by omega
        rw [e1, List.drop_succ_cons, List.drop_succ_cons]
        have e2 : k - idx = k + 1 - (idx + 1) := by omega
        rw [e2]
        exact hC
      · simp only
        have e3 : k - idx = (k - (idx + 1)) + 1 := by omega
        rw [e3, List.get?_cons_succ]
        exact hD

theorem copy_in_ignore (env : InEnv) (aDA : Bool) (wd : String) :
    ∀ (fs : List FileSpec) (idx : Nat),
      (copy_in_loop env aDA true wd idx fs).exn = none ∧
      ∀ (j : Nat) (f : FileSpec), fs.get? j = some f →
        (copy_in_loop env aDA true wd idx fs).files.get? j
            = some (copy_in_step env aDA true wd (idx + j) f).file ∧
        ((f.is_directaccess && aDA) = true ∨
          ∃ t, (idx + j, t) ∈ (copy_in_loop env aDA true wd idx fs).cmds) := by
  intro fs
  induction fs with
  | nil =>
    intro idx
    exact ⟨rfl, fun j f hj => by simp at hj⟩
  | cons g rest ih =>
    intro idx
    have hexn : (copy_in_step env aDA true wd idx g).exn = none :=
      copy_in_step_exn_ign env aDA wd idx g
    rw [copy_in_loop_cons_ok g rest hexn]
    simp only
    obtain ⟨ihE, ihJ⟩ := ih (idx + 1)
    refine ⟨ihE, ?_⟩
    intro j f hj
    cases j with
    | zero =>
      simp only [List.get?_cons_zero, Option.some.injEq] at hj
      subst hj
      refine ⟨by simp, ?_⟩
      cases hd : (g.is_directaccess && aDA) with
      | true => exact Or.inl rfl
      | false =>
        refine Or.inr ⟨inCmdline wd g, ?_⟩
        simp only [List.mem_append]
        left
        rw [Nat.add_zero, copy_in_step_cmd_not_direct env aDA true wd idx g hd]
        simp
    | succ j =>
      simp only [List.get?_cons_succ] at hj
      obtain ⟨h1, h2⟩ := ihJ j f hj
      constructor
      · simp only [List.get?_cons_succ]
        rw [h1]
        have e : idx + 1 + j = idx + (j + 1) := by omega
        rw [e]
      · rcases h2 with h2 | ⟨t, ht⟩
        · exact Or.inl h2
        · refine Or.inr ⟨t, ?_⟩
          simp only [List.mem_append]
          right
          have e : idx + (j + 1) = idx + 1 + j := by omega
          rw [e]
          exact ht

theorem copy_in_direct_skip (env : InEnv) (aDA ign : Bool) (wd : String) :
    ∀ (fs : List FileSpec) (idx j : Nat) (f : FileSpec),
      fs.get? j = some f → (f.is_directaccess && aDA) = true →
      (∀ t, (idx + j, t) ∉ (copy_in_loop env aDA ign wd idx fs).cmds) ∧
      ((copy_in_loop env aDA ign wd idx fs).exn = none →
        (copy_in_loop env aDA ign wd idx fs).files.get? j
            = some { f with status_code := 0, status := "remote_io" }) := by
  intro fs
  induction fs with
  | nil => intro idx j f hj; simp at hj
  | cons g rest ih =>
    intro idx j f hj hda
    cases j with
    | zero =>
      simp only [List.get?_cons_zero, Option.some.injEq] at hj
      subst hj
      have hstep := copy_in_step_cmd_direct env aDA ign wd idx g hda
      have hexn : (copy_in_step env aDA ign wd idx g).exn = none := by rw [hstep]
      rw [copy_in_loop_cons_ok g rest hexn]
      simp only
      constructor
      · intro t ht
        simp only [List.mem_append] at ht
        rcases ht with ht | ht
        · rw [hstep] at ht; simp at ht
        · have := copy_in_cmds_ge env aDA ign wd rest (idx + 1) _ ht
          simp at this
      · intro _
        rw [List.get?_cons_zero, hstep]
    | succ j =>
      cases hexn : (copy_in_step env aDA ign wd idx g).exn with
      | some e =>
        rw [copy_in_loop_cons_raise g rest hexn]
        simp only [List.get?_cons_succ] at hj
        constructor
        · intro t ht
          have := copy_in_step_cmd_idx env aDA ign wd idx g _ ht
          simp at this
        · intro h
          simp at h
      | none =>
        rw [copy_in_loop_cons_ok g rest hexn]
        simp only [List.get?_cons_succ] at hj
        simp only
        obtain ⟨ih1, ih2⟩ := ih (idx + 1) j f hj hda
        constructor
        · intro t ht
          simp only [List.mem_append] at ht
          rcases ht with ht | ht
          · have := copy_in_step_cmd_idx env aDA ign wd idx g _ ht
            simp at this
          · have e : idx + (j + 1) = idx + 1 + j := by omega
            rw [e] at ht
            exact ih1 t ht
        · intro h
          rw [List.get?_cons_succ]
          exact ih2 h

theorem copy_in_step_ok_eq (env : InEnv) (aDA ign : Bool) (wd : String) (idx : Nat)
    (f : FileSpec) (hd : (f.is_directaccess && aDA) = false)
    (her : (env.exec idx (inCmdline wd f)).1 = 0) :
    copy_in_step env aDA ign wd idx f =
      copy_in_tail env ign idx (inCmdline wd f) (pyOr f.workdir (pyOr wd "."))
        { f with status_code := 0 } := by
  simp only [copy_in_step, hd, Bool.false_eq_true, if_false]
  split
  · rfl
  · next h0 => exact absurd her h0

theorem copy_in_tail_ok_eq (env : InEnv) (ign : Bool) (idx : Nat) (cmdline dst : String)
    (f : FileSpec) (hcode : f.status_code = 0)
    (hex : env.pathExists (pathJoin dst f.lfn) = true)
    (hv : (env.verify f (pathJoin dst f.lfn)).failCode = none ∨
          (env.verify f (pathJoin dst f.lfn)).failCode = some 0) :
    copy_in_tail env ign idx cmdline dst f =
      ⟨{ f with status_code := 0, status := "transferred" },
       some (idx, cmdline), some (idx, pathJoin dst f.lfn), none⟩ := by
  simp only [copy_in_tail, hex, if_true]
  unfold applyVerify
  rcases hv with hv | hv <;> rw [hv]
  · have hc : (decide (f.status_code ≠ 0) && !ign) = false := by
      rw [hcode]; simp
    rw [hc]
    simp only [Bool.false_eq_true, if_false]
    unfold finishRecord
    rw [if_pos hcode]
  · simp [finishRecord]

/-! ## Step-level lemmas for copy_out -/

theorem copy_out_summary_cmd (env : OutEnv) (ign : Bool) (wd : String) (idx : Nat)
    (cmdline : String) (sv : SummaryVar) (f : FileSpec) :
    (copy_out_summary env ign wd idx cmdline sv f).cmd = (idx, cmdline) := by
  simp only [copy_out_summary]
  split
  · split
    · split
      · split <;> rfl
      · rfl
    · rfl
  · rfl

theorem copy_out_step_cmd (env : OutEnv) (noReg ign : Bool) (wd : String) (idx : Nat)
    (sv : SummaryVar) (f : FileSpec) :
    (copy_out_step env noReg ign wd idx sv f).cmd
        = (idx, outCmdline sv.truthy noReg f) := by
  simp only [copy_out_step]
  split
  · exact copy_out_summary_cmd ..
  · split
    · exact copy_out_summary_cmd ..
    · rfl

theorem copy_out_summary_exn_ign (env : OutEnv) (wd : String) (idx : Nat)
    (cmdline : String) (sv : SummaryVar) (f : FileSpec) :
    (copy_out_summary env true wd idx cmdline sv f).exn = none := by
  simp only [copy_out_summary]
  split
  · split
    · split
      · simp
      · rfl
    · rfl
  · rfl

theorem copy_out_step_exn_ign (env : OutEnv) (noReg : Bool) (wd : String) (idx : Nat)
    (sv : SummaryVar) (f : FileSpec) :
    (copy_out_step env noReg true wd idx sv f).exn = none := by
  simp only [copy_out_step]
  split
  · exact copy_out_summary_exn_ign ..
  · simp only [if_true]
    exact copy_out_summary_exn_ign ..

theorem copy_out_summary_rd_idx (env : OutEnv) (ign : Bool) (wd : String) (idx : Nat)
    (cmdline : String) (sv : SummaryVar) (f : FileSpec) :
    ∀ p ∈ (copy_out_summary env ign wd idx cmdline sv f).rd.toList, p.1 = idx := by
  intro p hp
  simp only [copy_out_summary] at hp
  split at hp
  · split at hp
    · split at hp
      · split at hp <;> simp at hp <;> rw [hp]
      · simp at hp
        rw [hp]
    · simp at hp
  · simp at hp

theorem copy_out_step_rd_idx (env : OutEnv) (noReg ign : Bool) (wd : String) (idx : Nat)
    (sv : SummaryVar) (f : FileSpec) :
    ∀ p ∈ (copy_out_step env noReg ign wd idx sv f).rd.toList, p.1 = idx := by
  intro p hp
  simp only [copy_out_step] at hp
  split at hp
  · exact copy_out_summary_rd_idx env ign wd idx _ sv _ p hp
  · split at hp
    · exact copy_out_summary_rd_idx env ign wd idx _ sv _ p hp
    · simp at hp

theorem copy_out_summary_inv (env : OutEnv) (ign : Bool) (wd : String) (idx : Nat)
    (cmdline : String) (sv : SummaryVar) (f : FileSpec)
    (h : f.status_code ≠ 0 → f.status = "failed") :
    statusInv (copy_out_summary env ign wd idx cmdline sv f).file := by
  simp only [copy_out_summary]
  split
  · split
    · split
      · split
        · exact statusInv_finish _ (fun _ => rfl)
        · refine statusInv_of_failed _ ?_ rfl
          show ErrorCodes.PUTADMISMATCH ≠ 0
          decide
      · exact statusInv_finish _ h
    · exact statusInv_finish _ h
  · exact statusInv_finish _ h

theorem copy_out_step_inv (env : OutEnv) (noReg ign : Bool) (wd : String) (idx : Nat)
    (sv : SummaryVar) (f : FileSpec) :
    statusInv (copy_out_step env noReg ign wd idx sv f).file := by
  simp only [copy_out_step]
  split
  · exact copy_out_summary_inv env ign wd idx _ sv _ (fun hc => absurd rfl hc)
  · split
    · exact copy_out_summary_inv env ign wd idx _ sv _ (fun _ => rfl)
    · refine statusInv_of_failed _ ?_ rfl
      exact resolve_rcode_ne_zero _ false

theorem copy_out_summary_falsy (env : OutEnv) (ign : Bool) (wd : String) (idx : Nat)
    (cmdline : String) (sv : SummaryVar) (f : FileSpec) (hsv : sv.truthy = false) :
    copy_out_summary env ign wd idx cmdline sv f
        = ⟨finishRecord f, sv, (idx, cmdline), none, none⟩ := by
  simp only [copy_out_summary, hsv]
  rfl

theorem finishRecord_turl (f : FileSpec) : (finishRecord f).turl = f.turl := by
  unfold finishRecord
  split <;> rfl

theorem copy_out_step_falsy (env : OutEnv) (noReg ign : Bool) (wd : String) (idx : Nat)
    (sv : SummaryVar) (f : FileSpec) (hsv : sv.truthy = false) :
    (copy_out_step env noReg ign wd idx sv f).rd = none ∧
    (copy_out_step env noReg ign wd idx sv f).sv = sv ∧
    (copy_out_step env noReg ign wd idx sv f).file.turl = f.turl := by
  simp only [copy_out_step]
  split
  · rw [copy_out_summary_falsy env ign wd idx _ sv _ hsv]
    exact ⟨rfl, rfl, finishRecord_turl _⟩
  · split
    · rw [copy_out_summary_falsy env ign wd idx _ sv _ hsv]
      exact ⟨rfl, rfl, finishRecord_turl _⟩
    · exact ⟨rfl, rfl, rfl⟩

theorem pyMismatch_none (x : Option String) : pyMismatch x none = false := by
  cases x <;> rfl

theorem copy_out_step_read_empty (env : OutEnv) (noReg ign : Bool) (wd : String)
    (idx : Nat) (sv : SummaryVar) (f : FileSpec) (pth : String)
    (hrd : (copy_out_step env noReg ign wd idx sv f).rd = some (idx, pth))
    (hempty : env.summaryOf idx pth = []) :
    (copy_out_step env noReg ign wd idx sv f).exn = none ∧
    (copy_out_step env noReg ign wd idx sv f).sv = SummaryVar.parsed [] := by
  have main : ∀ (g : FileSpec) (cmdline : String),
      (copy_out_summary env ign wd idx cmdline sv g).rd = some (idx, pth) →
      (copy_out_summary env ign wd idx cmdline sv g).exn = none ∧
      (copy_out_summary env ign wd idx cmdline sv g).sv = SummaryVar.parsed [] := by
    intro g cmdline hrd2
    simp only [copy_out_summary] at hrd2 ⊢
    by_cases h1 : sv.truthy = true
    · rw [if_pos h1] at hrd2 ⊢
      by_cases h2 : env.pathExists (pathJoin (pyOr g.workdir (pyOr wd ".")) "rucio_upload.json") = true
      · rw [if_pos h2] at hrd2 ⊢
        have hpth : pth = pathJoin (pyOr g.workdir (pyOr wd ".")) "rucio_upload.json" := by
          split at hrd2
          · split at hrd2 <;> (simp at hrd2; exact hrd2.symm)
          · simp at hrd2
            exact hrd2.symm
        subst hpth
        rw [hempty]
        simp [lookupStr, pyMismatch_none]
      · rw [if_neg h2] at hrd2
        simp at hrd2
    · rw [if_neg h1] at hrd2
      simp at hrd2
  simp only [copy_out_step] at hrd ⊢
  by_cases her : (env.exec idx (outCmdline sv.truthy noReg f)).1 = 0
  · rw [if_pos her] at hrd ⊢
    exact main _ _ hrd
  · rw [if_neg her] at hrd ⊢
    by_cases hig : ign = true
    · rw [if_pos hig] at hrd ⊢
      exact main _ _ hrd
    · rw [if_neg hig] at hrd ⊢
      simp at hrd

theorem copy_out_step_fail_eq (env : OutEnv) (noReg : Bool) (wd : String) (idx : Nat)
    (sv : SummaryVar) (f : FileSpec)
    (her : (env.exec idx (outCmdline sv.truthy noReg f)).1 ≠ 0) :
    copy_out_step env noReg false wd idx sv f =
      ⟨{ f with
           status_code :=
             (resolve_transfer_error (env.exec idx (outCmdline sv.truthy noReg f)).2.2 false).rcode,
           status := "failed" },
       sv, (idx, outCmdline sv.truthy noReg f), none,
       some ⟨(resolve_transfer_error (env.exec idx (outCmdline sv.truthy noReg f)).2.2 false).error,
             (resolve_transfer_error (env.exec idx (outCmdline sv.truthy noReg f)).2.2 false).rcode,
             (resolve_transfer_error (env.exec idx (outCmdline sv.truthy noReg f)).2.2 false).state⟩⟩ := by
  simp only [copy_out_step]
  rw [if_neg her]
  simp

/-! ## Loop-level lemmas for copy_out -/

theorem copy_out_loop_cons_raise {env : OutEnv} {noReg ign : Bool} {wd : String}
    {idx : Nat} {sv : SummaryVar} (f : FileSpec) (rest : List FileSpec)
    {e : PilotException} (h : (copy_out_step env noReg ign wd idx sv f).exn = some e) :
    copy_out_loop env noReg ign wd idx sv (f :: rest) =
      ⟨(copy_out_step env noReg ign wd idx sv f).file :: rest,
       [(copy_out_step env noReg ign wd idx sv f).cmd],
       (copy_out_step env noReg ign wd idx sv f).rd.toList, some e⟩ := by
  simp only [copy_out_loop]
  rw [h]

theorem copy_out_loop_cons_ok {env : OutEnv} {noReg ign : Bool} {wd : String}
    {idx : Nat} {sv : SummaryVar} (f : FileSpec) (rest : List FileSpec)
    (h : (copy_out_step env noReg ign wd idx sv f).exn = none) :
    copy_out_loop env noReg ign wd idx sv (f :: rest) =
      ⟨(copy_out_step env noReg ign wd idx sv f).file ::
          (copy_out_loop env noReg ign wd (idx + 1)
            (copy_out_step env noReg ign wd idx sv f).sv rest).files,
       (copy_out_step env noReg ign wd idx sv f).cmd ::
          (copy_out_loop env noReg ign wd (idx + 1)
            (copy_out_step env noReg ign wd idx sv f).sv rest).cmds,
       (copy_out_step env noReg ign wd idx sv f).rd.toList ++
          (copy_out_loop env noReg ign wd (idx + 1)
            (copy_out_step env noReg ign wd idx sv f).sv rest).reads,
       (copy_out_loop env noReg ign wd (idx + 1)
          (copy_out_step env noReg ign wd idx sv f).sv rest).exn⟩ := by
  simp only [copy_out_loop]
  rw [h]

theorem copy_out_cmds_ge (env : OutEnv) (noReg ign : Bool) (wd : String) :
    ∀ (fs : List FileSpec) (idx : Nat) (sv : SummaryVar) (p : Nat × String),
      p ∈ (copy_out_loop env noReg ign wd idx sv fs).cmds → idx ≤ p.1 := by
  intro fs
  induction fs with
  | nil => intro idx sv p hp; simp [copy_out_loop] at hp
  | cons g rest ih =>
    intro idx sv p hp
    cases hexn : (copy_out_step env noReg ign wd idx sv g).exn with
    | some e =>
      rw [copy_out_loop_cons_raise g rest hexn] at hp
      simp only [List.mem_singleton] at hp
      rw [hp, copy_out_step_cmd]
    | none =>
      rw [copy_out_loop_cons_ok g rest hexn] at hp
      simp only [List.mem_cons] at hp
      rcases hp with hp | hp
      · rw [hp, copy_out_step_cmd]
      · exact le_trans (Nat.le_succ idx) (ih (idx + 1) _ p hp)

theorem copy_out_reads_ge (env : OutEnv) (noReg ign : Bool) (wd : String) :
    ∀ (fs : List FileSpec) (idx : Nat) (sv : SummaryVar) (p : Nat × String),
      p ∈ (copy_out_loop env noReg ign wd idx sv fs).reads → idx ≤ p.1 := by
  intro fs
  induction fs with
  | nil => intro idx sv p hp; simp [copy_out_loop] at hp
  | cons g rest ih =>
    intro idx sv p hp
    cases hexn : (copy_out_step env noReg ign wd idx sv g).exn with
    | some e =>
      rw [copy_out_loop_cons_raise g rest hexn] at hp
      exact le_of_eq (copy_out_step_rd_idx env noReg ign wd idx sv g p hp).symm
    | none =>
      rw [copy_out_loop_cons_ok g rest hexn] at hp
      simp only [List.mem_append] at hp
      rcases hp with hp | hp
      · exact le_of_eq (copy_out_step_rd_idx env noReg ign wd idx sv g p hp).symm
      · exact le_trans (Nat.le_succ idx) (ih (idx + 1) _ p hp)

theorem copy_out_loop_inv (env : OutEnv) (noReg ign : Bool) (wd : String) :
    ∀ (fs : List FileSpec) (idx : Nat) (sv : SummaryVar),
      (copy_out_loop env noReg ign wd idx sv fs).exn = none →
      ∀ f ∈ (copy_out_loop env noReg ign wd idx sv fs).files, statusInv f := by
  intro fs
  induction fs with
  | nil => intro idx sv _ f hf; simp [copy_out_loop] at hf
  | cons g rest ih =>
    intro idx sv h f hf
    cases hexn : (copy_out_step env noReg ign wd idx sv g).exn with
    | some e => rw [copy_out_loop_cons_raise g rest hexn] at h; simp at h
    | none =>
      rw [copy_out_loop_cons_ok g rest hexn] at h hf
      simp only [List.mem_cons] at hf
      rcases hf with hf | hf
      · rw [hf]; exact copy_out_step_inv env noReg ign wd idx sv g
      · exact ih (idx + 1) _ h f hf

theorem copy_out_fail (env : OutEnv) (noReg : Bool) (wd : String) :
    ∀ (fs : List FileSpec) (idx k : Nat) (sv : SummaryVar) (s : String),
      (k, s) ∈ (copy_out_loop env noReg false wd idx sv fs).cmds →
      (env.exec k s).1 ≠ 0 →
      (copy_out_loop env noReg false wd idx sv fs).exn
          = some ⟨(resolve_transfer_error (env.exec k s).2.2 false).error,
                  (resolve_transfer_error (env.exec k s).2.2 false).rcode,
                  (resolve_transfer_error (env.exec k s).2.2 false).state⟩ ∧
      (∀ p ∈ (copy_out_loop env noReg false wd idx sv fs).cmds, p.1 ≤ k) ∧
      (copy_out_loop env noReg false wd idx sv fs).files.drop (k + 1 - idx)
          = fs.drop (k + 1 - idx) ∧
      ∃ g, (copy_out_loop env noReg false wd idx sv fs).files.get? (k - idx) = some g ∧
        g.status = "failed" ∧
        g.status_code = (resolve_transfer_error (env.exec k s).2.2 false).rcode := by
  intro fs
  induction fs with
  | nil => intro idx k sv s hmem hfail; simp [copy_out_loop] at hmem
  | cons g rest ih =>
    intro idx k sv s hmem hfail
    cases hexn : (copy_out_step env noReg false wd idx sv g).exn with
    | some e =>
      rw [copy_out_loop_cons_raise g rest hexn] at hmem ⊢
      simp only [List.mem_singleton] at hmem
      rw [copy_out_step_cmd] at hmem
      simp only [Prod.mk.injEq] at hmem
      obtain ⟨hk, hs⟩ := hmem
      subst hk; subst hs
      have her : (env.exec k (outCmdline sv.truthy noReg g)).1 ≠ 0 := hfail
      have hfeq := copy_out_step_fail_eq env noReg wd k sv g her
      rw [hfeq] at hexn
      simp only [Option.some.injEq] at hexn
      subst hexn
      refine ⟨rfl, ?_, ?_, ?_⟩
      · intro p hp
        simp only [List.mem_singleton] at hp
        rw [hp, copy_out_step_cmd]
      · have e1 : k + 1 - k = 1 := by omega
        rw [e1]
        simp
      · have e0 : k - k = 0 := by omega
        rw [e0, hfeq]
        exact ⟨_, rfl, rfl, rfl⟩
    | none =>
      rw [copy_out_loop_cons_ok g rest hexn] at hmem ⊢
      simp only [List.mem_cons] at hmem
      have hmem' : (k, s) ∈ (copy_out_loop env noReg false wd (idx + 1)
          (copy_out_step env noReg false wd idx sv g).sv rest).cmds := by
        rcases hmem with hmem | hmem
        · exfalso
          rw [copy_out_step_cmd] at hmem
          simp only [Prod.mk.injEq] at hmem
          obtain ⟨hk, hs⟩ := hmem
          subst hk; subst hs
          have hfeq := copy_out_step_fail_eq env noReg wd k sv g hfail
          rw [hfeq] at hexn
          simp at hexn
        · exact hmem
      have hk1 : idx + 1 ≤ k := copy_out_cmds_ge env noReg false wd rest (idx + 1) _ (k, s) hmem'
      obtain ⟨hA, hB, hC, hD⟩ := ih (idx + 1) k _ s hmem' hfail
      refine ⟨hA, ?_, ?_, ?_⟩
      · intro p hp
        simp only [List.mem_cons] at hp
        rcases hp with hp | hp
        · rw [hp, copy_out_step_cmd]
          omega
        · exact hB p hp
      · simp only
        have e1 : k + 1 - idx = (k - idx) + 1 := by omega
        rw [e1, List.drop_succ_cons, List.drop_succ_cons]
        have e2 : k - idx = k + 1 - (idx + 1) := by omega
        rw [e2]
        exact hC
      · simp only
        have e3 : k - idx = (k - (idx + 1)) + 1 := by omega
        rw [e3, List.get?_cons_succ]
        exact hD

theorem copy_out_ignore (env : OutEnv) (noReg : Bool) (wd : String) :
    ∀ (fs : List FileSpec) (idx : Nat) (sv : SummaryVar),
      (copy_out_loop env noReg true wd idx sv fs).exn = none ∧
      ∀ j, j < fs.length →
        ∃ t, (idx + j, t) ∈ (copy_out_loop env noReg true wd idx sv fs).cmds := by
  intro fs
  induction fs with
  | nil =>
    intro idx sv
    exact ⟨rfl, fun j hj => by simp at hj⟩
  | cons g rest ih =>
    intro idx sv
    have hexn : (copy_out_step env noReg true wd idx sv g).exn = none :=
      copy_out_step_exn_ign env noReg wd idx sv g
    rw [copy_out_loop_cons_ok g rest hexn]
    simp only
    obtain ⟨ihE, ihJ⟩ := ih (idx + 1) (copy_out_step env noReg true wd idx sv g).sv
    refine ⟨ihE, ?_⟩
    intro j hj
    cases j with
    | zero =>
      refine ⟨outCmdline sv.truthy noReg g, ?_⟩
      simp only [List.mem_cons]
      left
      rw [Nat.add_zero, copy_out_step_cmd]
    | succ j =>
      simp only [List.length_cons, Nat.succ_lt_succ_iff] at hj
      obtain ⟨t, ht⟩ := ihJ j hj
      refine ⟨t, ?_⟩
      simp only [List.mem_cons]
      right
      have e : idx + (j + 1) = idx + 1 + j := by omega
      rw [e]
      exact ht

theorem copy_out_loop_falsy (env : OutEnv) (noReg ign : Bool) (wd : String) :
    ∀ (fs : List FileSpec) (idx : Nat) (sv : SummaryVar), sv.truthy = false →
      (copy_out_loop env noReg ign wd idx sv fs).reads = [] ∧
      ∀ m, ((copy_out_loop env noReg ign wd idx sv fs).files.get? m).map (·.turl)
          = (fs.get? m).map (·.turl) := by
  intro fs
  induction fs with
  | nil => intro idx sv hsv; exact ⟨rfl, fun m => rfl⟩
  | cons g rest ih =>
    intro idx sv hsv
    obtain ⟨hrd, hsv2, hturl⟩ := copy_out_step_falsy env noReg ign wd idx sv g hsv
    cases hexn : (copy_out_step env noReg ign wd idx sv g).exn with
    | some e =>
      rw [copy_out_loop_cons_raise g rest hexn]
      simp only [hrd, Option.toList_none]
      refine ⟨trivial, ?_⟩
      intro m
      cases m with
      | zero => simp [hturl]
      | succ m => simp
    | none =>
      rw [copy_out_loop_cons_ok g rest hexn]
      simp only
      have hsv' : (copy_out_step env noReg ign wd idx sv g).sv.truthy = false := by
        rw [hsv2]; exact hsv
      obtain ⟨ihR, ihT⟩ := ih (idx + 1) _ hsv'
      refine ⟨by rw [hrd]; simpa using ihR, ?_⟩
      intro m
      cases m with
      | zero => simp [hturl]
      | succ m =>
        simp only [List.get?_cons_succ]
        exact ihT m

theorem finishRecord_ne_zero (f : FileSpec) (h : f.status_code ≠ 0) :
    finishRecord f = f := by
  unfold finishRecord
  rw [if_neg h]

theorem finishRecord_failed (f : FileSpec) (hc : f.status_code ≠ 0)
    (hs : f.status = "failed") :
    (finishRecord f).status = "failed" ∧ (finishRecord f).status_code ≠ 0 := by
  rw [finishRecord_ne_zero f hc]
  exact ⟨hs, hc⟩

theorem copy_out_summary_failed (env : OutEnv) (wd : String) (idx : Nat)
    (cmdline : String) (sv : SummaryVar) (f : FileSpec)
    (hc : f.status_code ≠ 0) (hs : f.status = "failed") :
    (copy_out_summary env true wd idx cmdline sv f).file.status = "failed" ∧
    (copy_out_summary env true wd idx cmdline sv f).file.status_code ≠ 0 := by
  simp only [copy_out_summary]
  split
  · split
    · split
      · simp only [if_true]
        exact finishRecord_failed _ (by show ErrorCodes.PUTADMISMATCH ≠ 0; decide) rfl
      · exact finishRecord_failed _ hc hs
    · exact finishRecord_failed _ hc hs
  · exact finishRecord_failed _ hc hs

theorem copy_out_step_failed (env : OutEnv) (noReg : Bool) (wd : String) (idx : Nat)
    (sv : SummaryVar) (f : FileSpec)
    (her : (env.exec idx (outCmdline sv.truthy noReg f)).1 ≠ 0) :
    (copy_out_step env noReg true wd idx sv f).file.status = "failed" ∧
    (copy_out_step env noReg true wd idx sv f).file.status_code ≠ 0 := by
  simp only [copy_out_step]
  rw [if_neg her]
  simp only [if_true]
  exact copy_out_summary_failed env wd idx _ sv _ (resolve_rcode_ne_zero _ false) rfl

theorem copy_out_ignore_step (env : OutEnv) (noReg : Bool) (wd : String) :
    ∀ (fs : List FileSpec) (idx : Nat) (sv : SummaryVar) (j : Nat) (f : FileSpec),
      fs.get? j = some f →
      ∃ sv', (copy_out_loop env noReg true wd idx sv fs).files.get? j
          = some (copy_out_step env noReg true wd (idx + j) sv' f).file := by
  intro fs
  induction fs with
  | nil => intro idx sv j f hj; simp at hj
  | cons g rest ih =>
    intro idx sv j f hj
    have hexn : (copy_out_step env noReg true wd idx sv g).exn = none :=
      copy_out_step_exn_ign env noReg wd idx sv g
    rw [copy_out_loop_cons_ok g rest hexn]
    simp only
    cases j with
    | zero =>
      simp only [List.get?_cons_zero, Option.some.injEq] at hj
      subst hj
      exact ⟨sv, by simp⟩
    | succ j =>
      simp only [List.get?_cons_succ] at hj
      obtain ⟨sv', h⟩ := ih (idx + 1) (copy_out_step env noReg true wd idx sv g).sv j f hj
      refine ⟨sv', ?_⟩
      rw [List.get?_cons_succ, h]
      have e : idx + 1 + j = idx + (j + 1) := by omega
      rw [e]

theorem copy_out_ignore_failed (env : OutEnv) (noReg : Bool) (wd : String) :
    ∀ (fs : List FileSpec) (idx : Nat) (sv : SummaryVar) (j : Nat) (t : String),
      (j, t) ∈ (copy_out_loop env noReg true wd idx sv fs).cmds →
      (env.exec j t).1 ≠ 0 →
      ∃ g, (copy_out_loop env noReg true wd idx sv fs).files.get? (j - idx) = some g ∧
        g.status = "failed" ∧ g.status_code ≠ 0 := by
  intro fs
  induction fs with
  | nil => intro idx sv j t hmem hfail; simp [copy_out_loop] at hmem
  | cons g rest ih =>
    intro idx sv j t hmem hfail
    have hexn : (copy_out_step env noReg true wd idx sv g).exn = none :=
      copy_out_step_exn_ign env noReg wd idx sv g
    rw [copy_out_loop_cons_ok g rest hexn] at hmem ⊢
    simp only [List.mem_cons] at hmem
    rcases hmem with hmem | hmem
    · rw [copy_out_step_cmd] at hmem
      simp only [Prod.mk.injEq] at hmem
      obtain ⟨hk, ht⟩ := hmem
      subst hk; subst ht
      have e0 : j - j = 0 := by omega
      simp only [e0, List.get?_cons_zero]
      have hfs := copy_out_step_failed env noReg wd j sv g hfail
      exact ⟨_, rfl, hfs.1, hfs.2⟩
    · have hk1 : idx + 1 ≤ j := copy_out_cmds_ge env noReg true wd rest (idx + 1) _ (j, t) hmem
      obtain ⟨g2, h1, h2, h3⟩ := ih (idx + 1) _ j t hmem hfail
      have e3 : j - idx = (j - (idx + 1)) + 1 := by omega
      simp only [e3, List.get?_cons_succ]
      exact ⟨g2, h1, h2, h3⟩

theorem copy_out_empty_summary (env : OutEnv) (noReg ign : Bool) (wd : String) :
    ∀ (fs : List FileSpec) (idx k : Nat) (sv : SummaryVar) (pth : String),
      (k, pth) ∈ (copy_out_loop env noReg ign wd idx sv fs).reads →
      env.summaryOf k pth = [] →
      ∀ j, k < j →
        (∀ q, (j, q) ∉ (copy_out_loop env noReg ign wd idx sv fs).reads) ∧
        ((copy_out_loop env noReg ign wd idx sv fs).files.get? (j - idx)).map (·.turl)
            = (fs.get? (j - idx)).map (·.turl) := by
  intro fs
  induction fs with
  | nil => intro idx k sv pth hmem hempty; simp [copy_out_loop] at hmem
  | cons g rest ih =>
    intro idx k sv pth hmem hempty j hj
    cases hexn : (copy_out_step env noReg ign wd idx sv g).exn with
    | some e =>
      exfalso
      rw [copy_out_loop_cons_raise g rest hexn] at hmem
      simp only at hmem
      have hk : k = idx := copy_out_step_rd_idx env noReg ign wd idx sv g (k, pth) hmem
      subst hk
      have hrd : (copy_out_step env noReg ign wd k sv g).rd = some (k, pth) := by
        cases hr : (copy_out_step env noReg ign wd k sv g).rd with
        | none => rw [hr] at hmem; simp at hmem
        | some p =>
          rw [hr] at hmem
          simp only [Option.toList_some, List.mem_singleton] at hmem
          rw [← hmem]
      obtain ⟨hno, -⟩ := copy_out_step_read_empty env noReg ign wd k sv g pth hrd hempty
      rw [hno] at hexn
      cases hexn
    | none =>
      rw [copy_out_loop_cons_ok g rest hexn] at hmem ⊢
      simp only [List.mem_append] at hmem
      rcases hmem with hmem | hmem
      · have hk : k = idx := copy_out_step_rd_idx env noReg ign wd idx sv g (k, pth) hmem
        subst hk
        have hrd : (copy_out_step env noReg ign wd k sv g).rd = some (k, pth) := by
          cases hr : (copy_out_step env noReg ign wd k sv g).rd with
          | none => rw [hr] at hmem; simp at hmem
          | some p =>
            rw [hr] at hmem
            simp only [Option.toList_some, List.mem_singleton] at hmem
            rw [← hmem]
        obtain ⟨-, hsv2⟩ := copy_out_step_read_empty env noReg ign wd k sv g pth hrd hempty
        have hfalsy : (copy_out_step env noReg ign wd k sv g).sv.truthy = false := by
          rw [hsv2]; rfl
        obtain ⟨hR, hT⟩ := copy_out_loop_falsy env noReg ign wd rest (k + 1) _ hfalsy
        constructor
        · intro q hq
          simp only [List.mem_append] at hq
          rcases hq with hq | hq
          · have := copy_out_step_rd_idx env noReg ign wd k sv g (j, q) hq
            omega
          · rw [hR] at hq
            simp at hq
        · simp only
          have e3 : j - k = (j - (k + 1)) + 1 := by omega
          rw [e3, List.get?_cons_succ, List.get?_cons_succ]
          exact hT (j - (k + 1))
      · have hk1 : idx + 1 ≤ k :=
          copy_out_reads_ge env noReg ign wd rest (idx + 1) _ (k, pth) hmem
        obtain ⟨ih1, ih2⟩ := ih (idx + 1) k _ pth hmem hempty j hj
        constructor
        · intro q hq
          simp only [List.mem_append] at hq
          rcases hq with hq | hq
          · have := copy_out_step_rd_idx env noReg ign wd idx sv g (j, q) hq
            simp only at this
            omega
          · exact ih1 q hq
        · simp only
          have e3 : j - idx = (j - (idx + 1)) + 1 := by omega
          rw [e3, List.get?_cons_succ, List.get?_cons_succ]
          exact ih2

theorem copy_in_success (env : InEnv) (aDA ign : Bool) (wd : String) :
    ∀ (fs : List FileSpec) (idx j : Nat) (f : FileSpec) (s : String),
      fs.get? j = some f →
      (idx + j, s) ∈ (copy_in_loop env aDA ign wd idx fs).cmds →
      (env.exec (idx + j) s).1 = 0 →
      env.pathExists (pathJoin (pyOr f.workdir (pyOr wd ".")) f.lfn) = true →
      ((env.verify { f with status_code := 0 }
          (pathJoin (pyOr f.workdir (pyOr wd ".")) f.lfn)).failCode = none ∨
       (env.verify { f with status_code := 0 }
          (pathJoin (pyOr f.workdir (pyOr wd ".")) f.lfn)).failCode = some 0) →
      (copy_in_loop env aDA ign wd idx fs).files.get? j
          = some { f with status_code := 0, status := "transferred" } := by
  intro fs
  induction fs with
  | nil => intro idx j f s hj hmem _ _ _; simp at hj
  | cons g rest ih =>
    intro idx j f s hj hmem hok hex hv
    cases j with
    | zero =>
      simp only [List.get?_cons_zero, Option.some.injEq] at hj
      subst hj
      rw [Nat.add_zero] at hmem hok
      have hd : (g.is_directaccess && aDA) = false := by
        cases hdc : (g.is_directaccess && aDA) with
        | false => rfl
        | true =>
          exfalso
          have hstep := copy_in_step_cmd_direct env aDA ign wd idx g hdc
          have hexn : (copy_in_step env aDA ign wd idx g).exn = none := by rw [hstep]
          rw [copy_in_loop_cons_ok g rest hexn] at hmem
          simp only [List.mem_append] at hmem
          rcases hmem with hmem | hmem
          · rw [hstep] at hmem; simp at hmem
          · have := copy_in_cmds_ge env aDA ign wd rest (idx + 1) _ hmem
            exact absurd (this : idx + 1 ≤ idx) (by omega)
      have hcm := copy_in_step_cmd_not_direct env aDA ign wd idx g hd
      have hs : s = inCmdline wd g := by
        cases hexn : (copy_in_step env aDA ign wd idx g).exn with
        | some e =>
          rw [copy_in_loop_cons_raise g rest hexn] at hmem
          simp only at hmem
          rw [hcm] at hmem
          simp only [Option.toList_some, List.mem_singleton, Prod.mk.injEq] at hmem
          exact hmem.2
        | none =>
          rw [copy_in_loop_cons_ok g rest hexn] at hmem
          simp only [List.mem_append] at hmem
          rcases hmem with hmem | hmem
          · rw [hcm] at hmem
            simp only [Option.toList_some, List.mem_singleton, Prod.mk.injEq] at hmem
            exact hmem.2
          · exfalso
            have := copy_in_cmds_ge env aDA ign wd rest (idx + 1) _ hmem
            exact absurd (this : idx + 1 ≤ idx) (by omega)
      subst hs
      have hstep := copy_in_step_ok_eq env aDA ign wd idx g hd hok
      have htail := copy_in_tail_ok_eq env ign idx (inCmdline wd g)
        (pyOr g.workdir (pyOr wd ".")) { g with status_code := 0 } rfl hex hv
      have hexn : (copy_in_step env aDA ign wd idx g).exn = none := by
        rw [hstep, htail]
      rw [copy_in_loop_cons_ok g rest hexn]
      simp only [List.get?_cons_zero]
      rw [hstep, htail]
    | succ j =>
      simp only [List.get?_cons_succ] at hj
      cases hexn : (copy_in_step env aDA ign wd idx g).exn with
      | some e =>
        exfalso
        rw [copy_in_loop_cons_raise g rest hexn] at hmem
        simp only at hmem
        have := copy_in_step_cmd_idx env aDA ign wd idx g _ hmem
        exact absurd (this : idx + (j + 1) = idx) (by omega)
      | none =>
        rw [copy_in_loop_cons_ok g rest hexn] at hmem ⊢
        simp only [List.mem_append] at hmem
        have hmem' : (idx + (j + 1), s)
            ∈ (copy_in_loop env aDA ign wd (idx + 1) rest).cmds := by
          rcases hmem with hmem | hmem
          · exfalso
            have := copy_in_step_cmd_idx env aDA ign wd idx g _ hmem
            exact absurd (this : idx + (j + 1) = idx) (by omega)
          · exact hmem
        have e : idx + (j + 1) = (idx + 1) + j := by omega
        rw [e] at hmem' hok
        simp only [List.get?_cons_succ]
        exact ih (idx + 1) j f s hj hmem' hok hex hv

/-- Claim C1, as stated, is false on the code: once the
service-unavailable marker has been seen, a later `Details:` line still
overrides the returned message (only the code is kept).  Concretely, for
the text `"service_unavailable\nDetails: disk full"` the returned
message is `"disk full"`, not the fixed service-unavailable message. -/
theorem C1_counterexample :
    ¬ ((resolve_transfer_error "service_unavailable\nDetails: disk full" true).error
          = "service_unavailable" ∧
       (resolve_transfer_error "service_unavailable\nDetails: disk full" true).rcode
          = ErrorCodes.RUCIOSERVICEUNAVAILABLE) := by
  decide

/-- Claim C1 (amended): for every diagnostic text in which the
service-unavailable marker occurs on some line that does not itself
match the `Details:` pattern, `resolve_transfer_error` returns the
dedicated service-unavailable error code regardless of the other lines;
the returned message is the fixed `service_unavailable` message provided
no line of the text matches the `Details:` pattern (a later `Details:`
line overrides the message, though never the code). -/
theorem C1_service_unavailable (output : String) (is_stagein : Bool)
    (h : (splitOnChar '\n' output.toList).any markerLine = true) :
    (resolve_transfer_error output is_stagein).rcode = ErrorCodes.RUCIOSERVICEUNAVAILABLE ∧
    ((∀ l ∈ splitOnChar '\n' output.toList, searchDetails l = none) →
      (resolve_transfer_error output is_stagein).error = "service_unavailable") := by
  constructor
  · unfold resolve_transfer_error
    rw [foldl_classify_rcode, h]
    rfl
  · intro hd
    unfold resolve_transfer_error
    rw [foldl_classify_error_noDetails _ _ hd, h]
    rfl

/-- Witness for C1 at a concrete text. -/
theorem C1_witness :
    (resolve_transfer_error "err\nservice_unavailable down" true).rcode
        = ErrorCodes.RUCIOSERVICEUNAVAILABLE ∧
    (resolve_transfer_error "err\nservice_unavailable down" true).error
        = "service_unavailable" :=
  ⟨(C1_service_unavailable "err\nservice_unavailable down" true (by decide)).1,
   (C1_service_unavailable "err\nservice_unavailable down" true (by decide)).2 (by decide)⟩

/-! ## Claim C9 -/

/-- Claim C9, as stated, is false on the code: a text containing the
line `Details: disk full` does not always yield the message
`disk full`, because a later `Details:` line overrides the message.
Concretely, `"Details: disk full\nDetails: other"` yields `"other"`. -/
theorem C9_counterexample :
    ¬ ((resolve_transfer_error "Details: disk full\nDetails: other" true).error
          = "disk full") := by
  decide

/-- Claim C9 (amended): for every text containing a line
`Details: disk full` followed only by lines matching no pattern, the
returned message is `disk full`; for every text in which no line matches
the `Details:` pattern or contains the service-unavailable marker, the
result is exactly the direction-appropriate default (stage-in-failed
for inbound, stage-out-failed for outbound, state `COPY_ERROR`, message
embedding the full raw text); and for every input whatsoever a
structured error is returned whose state is `COPY_ERROR` and whose code
is drawn from the closed enumeration. -/
theorem C9_classifier (output : String) (b : Bool) :
    ((∃ pre post,
        splitOnChar '\n' output.toList = pre ++ "Details: disk full".toList :: post ∧
        ∀ l ∈ post, inertLine l = true) →
      (resolve_transfer_error output b).error = "disk full") ∧
    ((∀ l ∈ splitOnChar '\n' output.toList, inertLine l = true) →
      resolve_transfer_error output b = defaultError output b) ∧
    (resolve_transfer_error output b).state = "COPY_ERROR" ∧
    ((resolve_transfer_error output b).rcode = ErrorCodes.STAGEINFAILED ∨
     (resolve_transfer_error output b).rcode = ErrorCodes.STAGEOUTFAILED ∨
     (resolve_transfer_error output b).rcode = ErrorCodes.RUCIOSERVICEUNAVAILABLE) := by
  refine ⟨?_, ?_, ?_, resolve_rcode_cases output b⟩
  · rintro ⟨pre, post, heq, hpost⟩
    unfold resolve_transfer_error
    rw [heq, List.foldl_append, List.foldl_cons, foldl_classify_inert _ _ hpost]
    have hs : searchDetails "Details: disk full".toList = some "disk full".toList := by
      decide
    unfold classifyLine
    rw [hs]
    rfl
  · intro h
    unfold resolve_transfer_error
    exact foldl_classify_inert _ _ h
  · unfold resolve_transfer_error
    rw [foldl_classify_state]
    rfl

/-- Witness for C9 at concrete texts. -/
theorem C9_witness :
    (resolve_transfer_error "abc\nDetails: disk full\nok" true).error = "disk full" ∧
    resolve_transfer_error "unrelated" false = defaultError "unrelated" false :=
  ⟨(C9_classifier "abc\nDetails: disk full\nok" true).1
      ⟨["abc".toList], ["ok".toList], by decide, by decide⟩,
   (C9_classifier "unrelated" false).2.1 (by decide)⟩

/-! ## Claim C3 -/

/-- Claim C3: for every record in a batch, after `copy_in` or `copy_out`
returns normally (raises no exception), the record's status code is 0
iff its status tag is `remote_io` or `transferred`, and any nonzero
status code implies status tag `failed`. -/
theorem C3_status_invariant
    (envI : InEnv) (aDA ignI : Bool) (wdI : String) (fsI : List FileSpec)
    (envO : OutEnv) (noReg svOpt ignO : Bool) (wdO : String) (fsO : List FileSpec) :
    ((copy_in envI aDA ignI wdI fsI).exn = none →
      ∀ f ∈ (copy_in envI aDA ignI wdI fsI).files, statusInv f) ∧
    ((copy_out envO noReg svOpt ignO wdO fsO).exn = none →
      ∀ f ∈ (copy_out envO noReg svOpt ignO wdO fsO).files, statusInv f) :=
  ⟨fun h => copy_in_loop_inv envI aDA ignI wdI fsI 0 h,
   fun h => copy_out_loop_inv envO noReg ignO wdO fsO 0 (SummaryVar.flag svOpt) h⟩

/-- Witness for C3 on concrete batches. -/
theorem C3_witness :
    (∀ f ∈ (copy_in wEnvI false false "" wBatch).files, statusInv f) ∧
    (∀ f ∈ (copy_out wEnvO false true false "" wBatch).files, statusInv f) :=
  ⟨(C3_status_invariant wEnvI false false "" wBatch wEnvO false true false "" wBatch).1
      (by decide),
   (C3_status_invariant wEnvI false false "" wBatch wEnvO false true false "" wBatch).2
      (by decide)⟩

/-! ## Claim C4 -/

/-- Claim C4, as stated, is false on the code for `copy_out` with
ignore-errors true: a record's recorded failure is not independent of
the other records.  Concretely, two runs that agree on everything
record-1-relevant (the same exec results at index 1, the same summary
content at index 1, the same filesystem, the same record 1) record a
different failure code for record 1 — stage-out-failed when record 0's
summary parsed empty (so the rebound `summary` variable is falsy and
record 1's summary block is skipped), put-checksum-mismatch when
record 0's summary parsed non-empty. -/
theorem C4_counterexample :
    wEnvC4A.exec 1 = wEnvC4B.exec 1 ∧
    wEnvC4A.summaryOf 1 = wEnvC4B.summaryOf 1 ∧
    wEnvC4A.pathExists = wEnvC4B.pathExists ∧
    ¬ (((copy_out wEnvC4A false true true "" [wFileA, wFileB]).files.get? 1).map
          FileSpec.status_code
        = ((copy_out wEnvC4B false true true "" [wFileA, wFileB]).files.get? 1).map
          FileSpec.status_code) :=
  ⟨rfl, rfl, rfl, by decide⟩

/-- Claim C4 (amended): with ignore-errors false, a record whose
invocation was issued and returned nonzero makes the call raise, no
invocation is issued for any record after it, and the records after it
are untouched.  With ignore-errors true the call never raises; every
record is attempted (or legitimately skipped for direct access in
`copy_in`); each `copy_in` record's outcome is a function of that
record alone; and in `copy_out` every record's outcome is that record's
own processing under some state of the threaded summary variable — so a
record that is attempted and fails ends with tag `failed` and a nonzero
code recorded in that record's own status — but the recorded outcome is
not independent of earlier records, which reach it through the rebound
summary variable. -/
theorem C4_batch_short_circuit
    (envI : InEnv) (aDA : Bool) (wdI : String) (fsI : List FileSpec)
    (envO : OutEnv) (noReg svOpt : Bool) (wdO : String) (fsO : List FileSpec)
    (k : Nat) (s : String) (k2 : Nat) (s2 : String) :
    ((k, s) ∈ (copy_in envI aDA false wdI fsI).cmds → (envI.exec k s).1 ≠ 0 →
      (copy_in envI aDA false wdI fsI).exn.isSome = true ∧
      (∀ p ∈ (copy_in envI aDA false wdI fsI).cmds, p.1 ≤ k) ∧
      (copy_in envI aDA false wdI fsI).files.drop (k + 1) = fsI.drop (k + 1)) ∧
    ((k2, s2) ∈ (copy_out envO noReg svOpt false wdO fsO).cmds →
      (envO.exec k2 s2).1 ≠ 0 →
      (copy_out envO noReg svOpt false wdO fsO).exn.isSome = true ∧
      (∀ p ∈ (copy_out envO noReg svOpt false wdO fsO).cmds, p.1 ≤ k2) ∧
      (copy_out envO noReg svOpt false wdO fsO).files.drop (k2 + 1) = fsO.drop (k2 + 1)) ∧
    ((copy_in envI aDA true wdI fsI).exn = none ∧
      ∀ (j : Nat) (f : FileSpec), fsI.get? j = some f →
        (copy_in envI aDA true wdI fsI).files.get? j
            = some (copy_in_step envI aDA true wdI j f).file ∧
        ((f.is_directaccess && aDA) = true ∨
          ∃ t, (j, t) ∈ (copy_in envI aDA true wdI fsI).cmds)) ∧
    ((copy_out envO noReg svOpt true wdO fsO).exn = none ∧
      (∀ j, j < fsO.length →
        ∃ t, (j, t) ∈ (copy_out envO noReg svOpt true wdO fsO).cmds) ∧
      (∀ (j : Nat) (f : FileSpec), fsO.get? j = some f →
        ∃ sv', (copy_out envO noReg svOpt true wdO fsO).files.get? j
            = some (copy_out_step envO noReg true wdO j sv' f).file) ∧
      (∀ (j : Nat) (t : String),
        (j, t) ∈ (copy_out envO noReg svOpt true wdO fsO).cmds →
        (envO.exec j t).1 ≠ 0 →
        ∃ g, (copy_out envO noReg svOpt true wdO fsO).files.get? j = some g ∧
          g.status = "failed" ∧ g.status_code ≠ 0)) := by
  refine ⟨?_, ?_, ?_, ?_⟩
  · intro hmem hfail
    obtain ⟨hA, hB, hC, -⟩ := copy_in_fail envI aDA wdI fsI 0 k s hmem hfail
    exact ⟨by unfold copy_in; rw [hA]; rfl, hB, hC⟩
  · intro hmem hfail
    obtain ⟨hA, hB, hC, -⟩ :=
      copy_out_fail envO noReg wdO fsO 0 k2 (SummaryVar.flag svOpt) s2 hmem hfail
    exact ⟨by unfold copy_out; rw [hA]; rfl, hB, hC⟩
  · obtain ⟨hE, hJ⟩ := copy_in_ignore envI aDA wdI fsI 0
    refine ⟨hE, ?_⟩
    intro j f hj
    obtain ⟨h1, h2⟩ := hJ j f hj
    rw [Nat.zero_add] at h1 h2
    exact ⟨h1, h2⟩
  · obtain ⟨hE, hJ⟩ := copy_out_ignore envO noReg wdO fsO 0 (SummaryVar.flag svOpt)
    refine ⟨hE, ?_, ?_, ?_⟩
    · intro j hj
      obtain ⟨t, ht⟩ := hJ j hj
      rw [Nat.zero_add] at ht
      exact ⟨t, ht⟩
    · intro j f hj
      obtain ⟨sv2, h⟩ :=
        copy_out_ignore_step envO noReg wdO fsO 0 (SummaryVar.flag svOpt) j f hj
      rw [Nat.zero_add] at h
      exact ⟨sv2, h⟩
    · intro j t hmem hfail
      have h := copy_out_ignore_failed envO noReg wdO fsO 0 (SummaryVar.flag svOpt)
        j t hmem hfail
      exact h

/-- Witness for C4 on a three-record batch whose second invocation
fails. -/
theorem C4_witness :
    (copy_in wEnvIFail false false "" wBatch).exn.isSome = true ∧
    (copy_out wEnvOFail false true false "" wBatch).exn.isSome = true ∧
    (copy_in wEnvIFail false true "" wBatch).exn = none ∧
    (copy_out wEnvOFail false true true "" wBatch).exn = none ∧
    (∃ g, (copy_out wEnvOFail false true true "" wBatch).files.get? 1 = some g ∧
      g.status = "failed" ∧ g.status_code ≠ 0) := by
  have h := C4_batch_short_circuit wEnvIFail false "" wBatch wEnvOFail false true "" wBatch
    1 (inCmdline "" wFileB) 1 (outCmdline true false wFileB)
  exact ⟨(h.1 (by decide) (by decide)).1, (h.2.1 (by decide) (by decide)).1,
    h.2.2.1.1, h.2.2.2.1,
    h.2.2.2.2.2.2 1 (outCmdline true false wFileB) (by decide) (by decide)⟩

/-! ## Claim C5 -/

/-- Claim C5, as stated, is false on the code for the final status: with
ignore-errors set, a later summary-side checksum mismatch overwrites the
classifier's code with the put-checksum-mismatch code.  Concretely, an
upload whose invocation exits nonzero (classified as stage-out-failed)
but whose summary artifact shows a digest mismatch ends with status code
`PUTADMISMATCH`, not the classifier's code. -/
theorem C5_counterexample :
    ¬ (((copy_out
          (⟨fun _ _ => (1, "", "boom"), fun _ => true,
            fun _ _ => [("s:a", [("pfn", "P"), ("adler32", "bb")])]⟩ : OutEnv)
          false true true "" [wFileA]).files.get? 0).map FileSpec.status_code
        = some (resolve_transfer_error "boom" false).rcode) := by
  decide

/-- Claim C5 (amended): for every record whose invocation was issued and
returned a nonzero exit code, when ignore-errors is not set the batch
aborts at that record with a controlled failure carrying the classified
code, message and state for that direction and diagnostic text, and the
record's final status is the classifier's code with tag `failed`.  (With
ignore-errors set the code and tag are assigned at that point but a
later summary-side checksum mismatch may overwrite the code.) -/
theorem C5_failed_invocation
    (envI : InEnv) (aDA : Bool) (wdI : String) (fsI : List FileSpec)
    (envO : OutEnv) (noReg svOpt : Bool) (wdO : String) (fsO : List FileSpec)
    (k : Nat) (s : String) (k2 : Nat) (s2 : String) :
    ((k, s) ∈ (copy_in envI aDA false wdI fsI).cmds → (envI.exec k s).1 ≠ 0 →
      (copy_in envI aDA false wdI fsI).exn
          = some ⟨(resolve_transfer_error (envI.exec k s).2.2 true).error,
                  (resolve_transfer_error (envI.exec k s).2.2 true).rcode,
                  (resolve_transfer_error (envI.exec k s).2.2 true).state⟩ ∧
      ∃ g, (copy_in envI aDA false wdI fsI).files.get? k = some g ∧
        g.status = "failed" ∧
        g.status_code = (resolve_transfer_error (envI.exec k s).2.2 true).rcode) ∧
    ((k2, s2) ∈ (copy_out envO noReg svOpt false wdO fsO).cmds →
      (envO.exec k2 s2).1 ≠ 0 →
      (copy_out envO noReg svOpt false wdO fsO).exn
          = some ⟨(resolve_transfer_error (envO.exec k2 s2).2.2 false).error,
                  (resolve_transfer_error (envO.exec k2 s2).2.2 false).rcode,
                  (resolve_transfer_error (envO.exec k2 s2).2.2 false).state⟩ ∧
      ∃ g, (copy_out envO noReg svOpt false wdO fsO).files.get? k2 = some g ∧
        g.status = "failed" ∧
        g.status_code = (resolve_transfer_error (envO.exec k2 s2).2.2 false).rcode) := by
  constructor
  · intro hmem hfail
    obtain ⟨hA, -, -, hD⟩ := copy_in_fail envI aDA wdI fsI 0 k s hmem hfail
    exact ⟨hA, hD⟩
  · intro hmem hfail
    obtain ⟨hA, -, -, hD⟩ :=
      copy_out_fail envO noReg wdO fsO 0 k2 (SummaryVar.flag svOpt) s2 hmem hfail
    exact ⟨hA, hD⟩

/-- Witness for C5 on concrete failing batches. -/
theorem C5_witness :
    ((copy_in wEnvIFail false false "" wBatch).exn
        = some ⟨(resolve_transfer_error (wEnvIFail.exec 1 (inCmdline "" wFileB)).2.2 true).error,
                (resolve_transfer_error (wEnvIFail.exec 1 (inCmdline "" wFileB)).2.2 true).rcode,
                (resolve_transfer_error (wEnvIFail.exec 1 (inCmdline "" wFileB)).2.2 true).state⟩ ∧
      ∃ g, (copy_in wEnvIFail false false "" wBatch).files.get? 1 = some g ∧
        g.status = "failed" ∧
        g.status_code
          = (resolve_transfer_error (wEnvIFail.exec 1 (inCmdline "" wFileB)).2.2 true).rcode) ∧
    ((copy_out wEnvOFail false true false "" wBatch).exn
        = some ⟨(resolve_transfer_error
                   (wEnvOFail.exec 1 (outCmdline true false wFileB)).2.2 false).error,
                (resolve_transfer_error
                   (wEnvOFail.exec 1 (outCmdline true false wFileB)).2.2 false).rcode,
                (resolve_transfer_error
                   (wEnvOFail.exec 1 (outCmdline true false wFileB)).2.2 false).state⟩ ∧
      ∃ g, (copy_out wEnvOFail false true false "" wBatch).files.get? 1 = some g ∧
        g.status = "failed" ∧
        g.status_code = (resolve_transfer_error
            (wEnvOFail.exec 1 (outCmdline true false wFileB)).2.2 false).rcode) := by
  have h := C5_failed_invocation wEnvIFail false "" wBatch wEnvOFail false true "" wBatch
    1 (inCmdline "" wFileB) 1 (outCmdline true false wFileB)
  exact ⟨h.1 (by decide) (by decide), h.2 (by decide) (by decide)⟩

/-! ## Claim C6 -/

/-- Claim C6: in `copy_in`, for every record that supports direct remote
access while the option permitting direct access is set, no external
invocation is issued for that record, and (when the call returns
normally) the record's final status is code 0 with tag `remote_io`. -/
theorem C6_direct_access (env : InEnv) (aDA ign : Bool) (wd : String)
    (fs : List FileSpec) (j : Nat) (f : FileSpec)
    (hj : fs.get? j = some f) (hda : f.is_directaccess = true) (ha : aDA = true) :
    (∀ t, (j, t) ∉ (copy_in env aDA ign wd fs).cmds) ∧
    ((copy_in env aDA ign wd fs).exn = none →
      (copy_in env aDA ign wd fs).files.get? j
          = some { f with status_code := 0, status := "remote_io" }) := by
  have hboth : (f.is_directaccess && aDA) = true := by rw [hda, ha]; rfl
  have h := copy_in_direct_skip env aDA ign wd fs 0 j f hj hboth
  constructor
  · intro t
    have ht := h.1 t
    rwa [Nat.zero_add] at ht
  · exact h.2

/-- Witness for C6 on a concrete direct-access record. -/
theorem C6_witness :
    ((0 : Nat), "t") ∉ (copy_in wEnvI true false "" [wFileD]).cmds ∧
    (copy_in wEnvI true false "" [wFileD]).files.get? 0
        = some { wFileD with status_code := 0, status := "remote_io" } := by
  have h := C6_direct_access wEnvI true false "" [wFileD] 0 wFileD (by decide) (by decide) rfl
  exact ⟨h.1 "t", h.2 (by decide)⟩

/-! ## Claim C7 -/

/-- Claim C7: in `copy_in`, for every record whose invocation was issued
and returned zero, whose destination file exists, and for which the
checksum collaborator sets no nonzero status code, the record's final
status is code 0 with tag `transferred`. -/
theorem C7_success_transferred (env : InEnv) (aDA ign : Bool) (wd : String)
    (fs : List FileSpec) (j : Nat) (f : FileSpec) (s : String)
    (hj : fs.get? j = some f)
    (hmem : (j, s) ∈ (copy_in env aDA ign wd fs).cmds)
    (hok : (env.exec j s).1 = 0)
    (hex : env.pathExists (pathJoin (pyOr f.workdir (pyOr wd ".")) f.lfn) = true)
    (hv : (env.verify { f with status_code := 0 }
            (pathJoin (pyOr f.workdir (pyOr wd ".")) f.lfn)).failCode = none ∨
          (env.verify { f with status_code := 0 }
            (pathJoin (pyOr f.workdir (pyOr wd ".")) f.lfn)).failCode = some 0) :
    (copy_in env aDA ign wd fs).files.get? j
        = some { f with status_code := 0, status := "transferred" } := by
  have hmem0 : (0 + j, s) ∈ (copy_in_loop env aDA ign wd 0 fs).cmds := by
    rwa [Nat.zero_add]
  have hok0 : (env.exec (0 + j) s).1 = 0 := by rwa [Nat.zero_add]
  exact copy_in_success env aDA ign wd fs 0 j f s hj hmem0 hok0 hex hv

/-- Witness for C7 on a concrete successful download. -/
theorem C7_witness :
    (copy_in wEnvIOk false false "" [wFileA]).files.get? 0
        = some { wFileA with status_code := 0, status := "transferred" } :=
  C7_success_transferred wEnvIOk false false "" [wFileA] 0 wFileA (inCmdline "" wFileA)
    (by decide) (by decide) (by decide) (by decide) (Or.inl (by decide))

/-! ## Claim C2 -/

/-- Claim C2: in `copy_out` with the summary option enabled, once some
record's summary JSON file is read and parses to an empty (falsy)
object, every later record in the batch reads no summary file and its
physical transfer URL is left unchanged, even though the summary option
was requested for the whole batch (the loop variable holding the option
is rebound to the parsed object). -/
theorem C2_empty_summary (env : OutEnv) (noReg ign : Bool) (wd : String)
    (fs : List FileSpec) (k : Nat) (pth : String)
    (hread : (k, pth) ∈ (copy_out env noReg true ign wd fs).reads)
    (hempty : env.summaryOf k pth = []) :
    ∀ j, k < j →
      (∀ q, (j, q) ∉ (copy_out env noReg true ign wd fs).reads) ∧
      ((copy_out env noReg true ign wd fs).files.get? j).map (·.turl)
          = (fs.get? j).map (·.turl) := by
  intro j hj
  exact copy_out_empty_summary env noReg ign wd fs 0 k (SummaryVar.flag true) pth
    hread hempty j hj

/-- Witness for C2 on a concrete two-record batch whose first summary
parses empty. -/
theorem C2_witness :
    ((1 : Nat), "q") ∉ (copy_out wEnvORead false true false "" [wFileA, wFileB]).reads ∧
    ((copy_out wEnvORead false true false "" [wFileA, wFileB]).files.get? 1).map (·.turl)
        = ([wFileA, wFileB].get? 1).map (·.turl) := by
  have h := C2_empty_summary wEnvORead false false "" [wFileA, wFileB] 0
    (pathJoin "." "rucio_upload.json") (by decide) (by decide) 1 (by decide)
  exact ⟨h.1 "q", h.2⟩

/-! ## Claim C10 -/

/-- Claim C10: missing-artifact anomalies are non-fatal.  In `copy_in`,
a zero-exit transfer whose destination file does not exist raises
nothing, performs no checksum verification, and the record ends with its
previously-set successful status (finalized to code 0, tag
`transferred`).  In `copy_out`, when the summary artifact is absent the
call proceeds without reading it and without touching the record's
physical transfer URL or checksum-derived fields, ending with code 0,
tag `transferred`. -/
theorem C10_missing_artifacts
    (envI : InEnv) (aDA ignI : Bool) (wdI : String) (f : FileSpec)
    (envO : OutEnv) (noReg ignO : Bool) (wdO : String) (g : FileSpec) :
    ((f.is_directaccess && aDA) = false →
      (envI.exec 0 (inCmdline wdI f)).1 = 0 →
      envI.pathExists (pathJoin (pyOr f.workdir (pyOr wdI ".")) f.lfn) = false →
      copy_in envI aDA ignI wdI [f]
          = ⟨[{ f with status_code := 0, status := "transferred" }],
             [(0, inCmdline wdI f)], [], none⟩) ∧
    ((envO.exec 0 (outCmdline true noReg g)).1 = 0 →
      envO.pathExists (pathJoin (pyOr g.workdir (pyOr wdO ".")) "rucio_upload.json") = false →
      copy_out envO noReg true ignO wdO [g]
          = ⟨[{ g with status_code := 0, status := "transferred" }],
             [(0, outCmdline true noReg g)], [], none⟩) := by
  constructor
  · intro hd hok hmiss
    have hstep := copy_in_step_ok_eq envI aDA ignI wdI 0 f hd hok
    have htail : copy_in_tail envI ignI 0 (inCmdline wdI f)
        (pyOr f.workdir (pyOr wdI ".")) { f with status_code := 0 }
        = ⟨finishRecord { f with status_code := 0 },
           some (0, inCmdline wdI f), none, none⟩ := by
      simp only [copy_in_tail]
      rw [if_neg ?hcond]
      case hcond =>
        show ¬(envI.pathExists (pathJoin (pyOr f.workdir (pyOr wdI ".")) f.lfn) = true)
        rw [hmiss]
        simp
    have hexn : (copy_in_step envI aDA ignI wdI 0 f).exn = none := by
      rw [hstep, htail]
    unfold copy_in
    rw [copy_in_loop_cons_ok f [] hexn, hstep, htail]
    rfl
  · intro hok hmiss
    have hstep : copy_out_step envO noReg ignO wdO 0 (SummaryVar.flag true) g
        = copy_out_summary envO ignO wdO 0 (outCmdline true noReg g)
            (SummaryVar.flag true) { g with status_code := 0 } := by
      simp only [copy_out_step, SummaryVar.truthy]
      rw [if_pos hok]
    have hsum : copy_out_summary envO ignO wdO 0 (outCmdline true noReg g)
        (SummaryVar.flag true) { g with status_code := 0 }
        = ⟨finishRecord { g with status_code := 0 }, SummaryVar.flag true,
           (0, outCmdline true noReg g), none, none⟩ := by
      simp only [copy_out_summary, SummaryVar.truthy, if_true]
      rw [if_neg ?hcond2]
      case hcond2 =>
        show ¬(envO.pathExists (pathJoin (pyOr g.workdir (pyOr wdO ".")) "rucio_upload.json")
            = true)
        rw [hmiss]
        simp
    have hexn : (copy_out_step envO noReg ignO wdO 0 (SummaryVar.flag true) g).exn = none := by
      rw [hstep, hsum]
    unfold copy_out
    rw [copy_out_loop_cons_ok g [] hexn, hstep, hsum]
    rfl

/-- Witness for C10 on concrete records with the artifacts absent. -/
theorem C10_witness :
    copy_in wEnvI false false "" [wFileA]
        = ⟨[{ wFileA with status_code := 0, status := "transferred" }],
           [(0, inCmdline "" wFileA)], [], none⟩ ∧
    copy_out wEnvO false true false "" [wFileA]
        = ⟨[{ wFileA with status_code := 0, status := "transferred" }],
           [(0, outCmdline true false wFileA)], [], none⟩ := by
  have h := C10_missing_artifacts wEnvI false false "" wFileA wEnvO false false "" wFileA
  exact ⟨h.1 (by decide) (by decide) (by decide), h.2 (by decide) (by decide)⟩

/-! ## Claim C8 -/

/-- Claim C8: in `copy_out` with a present summary artifact mapping the
record's `scope:lfn` key to an entry with a `pfn` and an `adler32`
digest (and the record carrying an expected `adler32` digest): when the
digests agree, the record's physical transfer URL is set from the
entry's pfn and the final status is code 0 with tag `transferred`; when
they differ, the status becomes the dedicated put-checksum-mismatch code
with tag `failed`, and with ignore-errors false the call raises a
controlled failure carrying state `AD_MISMATCH`. -/
theorem C8_summary_checksum (env : OutEnv) (noReg ign : Bool) (wd : String)
    (f : FileSpec) (d : List (String × String)) (p a c : String)
    (hok : (env.exec 0 (outCmdline true noReg f)).1 = 0)
    (hpath : env.pathExists (pathJoin (pyOr f.workdir (pyOr wd ".")) "rucio_upload.json")
        = true)
    (hd : lookupStr
        (env.summaryOf 0 (pathJoin (pyOr f.workdir (pyOr wd ".")) "rucio_upload.json"))
        (f.scope ++ ":" ++ f.lfn) = some d)
    (hp : lookupStr d "pfn" = some p)
    (ha : lookupStr d "adler32" = some a)
    (hc : lookupStr f.checksum "adler32" = some c)
    (hane : a ≠ "") (hcne : c ≠ "") :
    (c = a →
      (copy_out env noReg true ign wd [f]).exn = none ∧
      ∃ g, (copy_out env noReg true ign wd [f]).files = [g] ∧
        g.turl = some p ∧ g.status_code = 0 ∧ g.status = "transferred") ∧
    (c ≠ a →
      (∃ g, (copy_out env noReg true ign wd [f]).files.get? 0 = some g ∧
        g.turl = some p ∧ g.status_code = ErrorCodes.PUTADMISMATCH ∧
        g.status = "failed") ∧
      (ign = false →
        (copy_out env noReg true ign wd [f]).exn
            = some ⟨"Failed to stageout: CRC mismatched",
                    ErrorCodes.PUTADMISMATCH, "AD_MISMATCH"⟩)) := by
  have hstep : copy_out_step env noReg ign wd 0 (SummaryVar.flag true) f
      = copy_out_summary env ign wd 0 (outCmdline true noReg f) (SummaryVar.flag true)
          { f with status_code := 0 } := by
    simp only [copy_out_step, SummaryVar.truthy]
    rw [if_pos hok]
  constructor
  · intro hca
    have hmm : pyMismatch (some c) (some a) = false := by
      subst hca
      simp [pyMismatch]
    have hstep2 : copy_out_step env noReg ign wd 0 (SummaryVar.flag true) f
        = ⟨finishRecord { f with status_code := 0, turl := some p },
           SummaryVar.parsed (env.summaryOf 0
             (pathJoin (pyOr f.workdir (pyOr wd ".")) "rucio_upload.json")),
           (0, outCmdline true noReg f),
           some (0, pathJoin (pyOr f.workdir (pyOr wd ".")) "rucio_upload.json"),
           none⟩ := by
      rw [hstep]
      simp only [copy_out_summary, SummaryVar.truthy, if_true]
      rw [if_pos hpath, hd]
      simp only
      rw [hp, hc, ha, hmm]
      simp only [Bool.false_eq_true, if_false]
    have hexn : (copy_out_step env noReg ign wd 0 (SummaryVar.flag true) f).exn = none := by
      rw [hstep2]
    unfold copy_out
    rw [copy_out_loop_cons_ok f [] hexn, hstep2]
    refine ⟨rfl, finishRecord { f with status_code := 0, turl := some p }, rfl, ?_, ?_, ?_⟩
    · rw [finishRecord_turl]
    · simp [finishRecord]
    · simp [finishRecord]
  · intro hca
    have hmm : pyMismatch (some c) (some a) = true := by
      simp [pyMismatch, hane, hcne, hca]
    cases hig : ign with
    | false =>
      have hstep2 : copy_out_step env noReg false wd 0 (SummaryVar.flag true) f
          = ⟨{ f with status_code := ErrorCodes.PUTADMISMATCH, turl := some p,
                      status := "failed" },
             SummaryVar.parsed (env.summaryOf 0
               (pathJoin (pyOr f.workdir (pyOr wd ".")) "rucio_upload.json")),
             (0, outCmdline true noReg f),
             some (0, pathJoin (pyOr f.workdir (pyOr wd ".")) "rucio_upload.json"),
             some ⟨"Failed to stageout: CRC mismatched",
                   ErrorCodes.PUTADMISMATCH, "AD_MISMATCH"⟩⟩ := by
        rw [hig] at hstep
        rw [hstep]
        simp only [copy_out_summary, SummaryVar.truthy, if_true]
        rw [if_pos hpath, hd]
        simp only
        rw [hp, hc, ha, hmm]
        simp only [if_true, Bool.false_eq_true, if_false]
      unfold copy_out
      rw [copy_out_loop_cons_raise f [] (by rw [hstep2])]
      rw [hstep2]
      exact ⟨⟨_, rfl, rfl, rfl, rfl⟩, fun _ => rfl⟩
    | true =>
      have hstep2 : copy_out_step env noReg true wd 0 (SummaryVar.flag true) f
          = ⟨finishRecord { f with status_code := ErrorCodes.PUTADMISMATCH,
                                   turl := some p, status := "failed" },
             SummaryVar.parsed (env.summaryOf 0
               (pathJoin (pyOr f.workdir (pyOr wd ".")) "rucio_upload.json")),
             (0, outCmdline true noReg f),
             some (0, pathJoin (pyOr f.workdir (pyOr wd ".")) "rucio_upload.json"),
             none⟩ := by
        rw [hig] at hstep
        rw [hstep]
        simp only [copy_out_summary, SummaryVar.truthy, if_true]
        rw [if_pos hpath, hd]
        simp only
        rw [hp, hc, ha, hmm]
        simp only [if_true]
      have hexn : (copy_out_step env noReg true wd 0 (SummaryVar.flag true) f).exn
          = none := by
        rw [hstep2]
      unfold copy_out
      rw [copy_out_loop_cons_ok f [] hexn, hstep2]
      refine ⟨⟨finishRecord { f with status_code := ErrorCodes.PUTADMISMATCH,
                                     turl := some p, status := "failed" },
               rfl, ?_, ?_, ?_⟩, ?_⟩
      · rw [finishRecord_turl]
      · simp [finishRecord, ErrorCodes.PUTADMISMATCH]
      · simp [finishRecord, ErrorCodes.PUTADMISMATCH]
      · intro habs
        exact absurd habs (by decide)

/-- Witness for C8 on concrete matching and mismatching records. -/
theorem C8_witness :
    ((copy_out wEnvOHit false true false "" [wFileM]).exn = none ∧
      ∃ g, (copy_out wEnvOHit false true false "" [wFileM]).files = [g] ∧
        g.turl = some "https://x/a" ∧ g.status_code = 0 ∧ g.status = "transferred") ∧
    ((∃ g, (copy_out wEnvOHit false true false "" [wFileN]).files.get? 0 = some g ∧
        g.turl = some "https://x/a" ∧ g.status_code = ErrorCodes.PUTADMISMATCH ∧
        g.status = "failed") ∧
      (copy_out wEnvOHit false true false "" [wFileN]).exn
          = some ⟨"Failed to stageout: CRC mismatched",
                  ErrorCodes.PUTADMISMATCH, "AD_MISMATCH"⟩) := by
  have h1 := C8_summary_checksum wEnvOHit false false "" wFileM
    [("pfn", "https://x/a"), ("adler32", "deadbeef")] "https://x/a" "deadbeef" "deadbeef"
    (by decide) (by decide) (by decide) (by decide) (by decide) (by decide)
    (by decide) (by decide)
  have h2 := C8_summary_checksum wEnvOHit false false "" wFileN
    [("pfn", "https://x/a"), ("adler32", "deadbeef")] "https://x/a" "deadbeef" "cafef00d"
    (by decide) (by decide) (by decide) (by decide) (by decide) (by decide)
    (by decide) (by decide)
  exact ⟨h1.1 rfl, (h2.2 (by decide)).1, (h2.2 (by decide)).2 rfl⟩

end Rucio
